import Mathlib

/-!
Verification development for the SCLisp interpreter core (sclisp.c).

This file gives a shallow embedding of the interpreter: the tagged object
model, the scope chain, the lexer, the reader, the printer, the tree-walking
evaluator with its builtin library, and the public `sclisp_eval` entry point.
Definitions mirror the C source function by function; names follow the C names.

Modelling conventions:
  * A C `struct Object*` is an `Obj`; the NULL pointer (nil) is `Obj.nil`.
  * Reference counting is not modelled (ref/unref are identity/no-ops on
    values); the static-instance sentinel (`SCLISP_STATIC_MAGIC`) is modelled
    as a boolean flag on the two atom variants that have static instances
    (integers and strings), so the identity-equality hack in `logic_op` can
    be expressed.
  * C `double` is modelled as `Rat` (exact rational arithmetic); IEEE-754
    rounding is abstracted away.  No claim below depends on rounding.
  * Out-of-memory paths (`SCLISP_NOMEM`) are not modelled: the host allocator
    is assumed to succeed.
  * Recursion in the evaluator is made total with an explicit fuel parameter;
    running out of fuel reports `SCLISP_BUG` and yields nil, which never
    happens for the concrete programs evaluated below.
-/

set_option maxRecDepth 8000

/-- Error codes from sclisp.h. -/
def SCLISP_OK : Int := 0
def SCLISP_ERR : Int := 1
def SCLISP_NOMEM : Int := 2
def SCLISP_BADARG : Int := 3
def SCLISP_UNSUPPORTED : Int := 4
def SCLISP_OVERFLOW : Int := 5
def SCLISP_BUG : Int := 0xbadb01

/-- Names of the builtin callbacks installed by `apply_builtins`.  A C
`struct Builtin` holds a function pointer; in the embedding the pointer is
an element of this enumeration, interpreted by `apply_builtin` below.
(User-registered builtins from the embedder bridge are not modelled.) -/
inductive BName where
  | set | plus | minus | multiply | divide | mod
  | car | cdr | cons | eval | reverse | list | quote | lambda | cond
  | trueq | falseq | atomq | cellq | nilq
  | lt | lte | gt | gte | eq
  | and | or | typeof | println | prompt
deriving DecidableEq

/-- The universal value: C `struct Object`.  `nil` models the NULL object
reference.  The `st` flag on `integer` and `str` marks the canonical static
instances (refcount `SCLISP_STATIC_MAGIC` in C); all dynamically constructed
atoms carry `st = false`. -/
inductive Obj where
  | nil : Obj
  | integer (n : Int) (st : Bool) : Obj
  | real (q : Rat) : Obj
  | str (s : String) (st : Bool) : Obj
  | symbol (s : String) : Obj
  | func (args body : Obj) : Obj
  | builtin (b : BName) : Obj
  | cell (car cdr : Obj) : Obj
deriving DecidableEq

/-- Static instance: canonical true (integer 1). -/
def SC_STATIC_TRUE : Obj := .integer 1 true
/-- Static instance: canonical false (integer 0). -/
def SC_STATIC_FALSE : Obj := .integer 0 true
def SC_STATIC_CELL_STR : Obj := .str "cell" true
def SC_STATIC_INTEGER_STR : Obj := .str "integer" true
def SC_STATIC_REAL_STR : Obj := .str "real" true
def SC_STATIC_STRING_STR : Obj := .str "string" true
def SC_STATIC_SYMBOL_STR : Obj := .str "symbol" true
def SC_STATIC_FUNCTION_STR : Obj := .str "function" true
def SC_STATIC_BUILTIN_STR : Obj := .str "builtin" true
def SC_STATIC_NIL_STR : Obj := .str "nil" true

/-- C macro `is_atom(p)`: non-null and tag ATOM. -/
def is_atom : Obj → Bool
  | .nil => false
  | .cell _ _ => false
  | _ => true

/-- C macro `is_cell(p)`. -/
def is_cell : Obj → Bool
  | .cell _ _ => true
  | _ => false

/-- C macro `is_nil(p)`. -/
def is_nil : Obj → Bool
  | .nil => true
  | _ => false

/-- C macro `is_integer(p)`. -/
def is_integer : Obj → Bool
  | .integer _ _ => true
  | _ => false

/-- C macro `is_real(p)`. -/
def is_real : Obj → Bool
  | .real _ => true
  | _ => false

/-- C macro `is_numeric_atom(p)`. -/
def is_numeric_atom : Obj → Bool
  | .integer _ _ => true
  | .real _ => true
  | _ => false

/-- C macro `is_numeric_zero(p)`. -/
def is_numeric_zero : Obj → Bool
  | .integer n _ => n == 0
  | .real q => q == 0
  | _ => false

/-- C macro `is_symbol(p)`. -/
def is_symbol : Obj → Bool
  | .symbol _ => true
  | _ => false

/-- C macro `is_string(p)`. -/
def is_string : Obj → Bool
  | .str _ _ => true
  | _ => false

/-- C macro `is_false(p)`: nil and numeric zero are the false-like values. -/
def is_false (p : Obj) : Bool := is_nil p || is_numeric_zero p

/-- C macro `is_true(p)`. -/
def is_true (p : Obj) : Bool := !is_false p

/-- Whether an object is one of the static instances (refcount equals
`SCLISP_STATIC_MAGIC` in C).  Only integers and strings have static
instances. -/
def isStaticMagic : Obj → Bool
  | .integer _ st => st
  | .str _ st => st
  | _ => false

/-- A `struct Binding` list: one scope frame's association list, most
recently prepended binding first. -/
def Frame := List (String × Obj)
deriving instance DecidableEq for Frame

/-- The interpreter instance `struct sclisp`.  The scope chain is the list of
frames, innermost first (the last element is the root frame).  The host
callback table is modelled by `hasGetchar` (whether a getchar callback was
supplied), `input` (the byte stream getchar yields) and `output` (everything
sent to the print callback). -/
structure Interp where
  scope : List Frame
  lr : Obj
  le : Int
  errmsg : Option String
  hasGetchar : Bool
  input : List Char
  output : List String
deriving DecidableEq

/-- C macro `SCLISP_REPORT_ERR`: record an error code and (possibly NULL)
static message in the instance. -/
def reportErr (s : Interp) (code : Int) (msg : Option String) : Interp :=
  { s with le := code, errmsg := msg }

/-- C function `scope_query`'s inner loop over one frame's bindings
(first match by `strcmp`). -/
def frame_lookup : Frame → String → Option Obj
  | [], _ => none
  | (sym, obj) :: bs, x => if sym = x then some obj else frame_lookup bs x

/-- C function `scope_query`: walk the chain innermost to root, return the
first binding found (`none` models the `SCLISP_ERR` return). -/
def scope_query : List Frame → String → Option Obj
  | [], _ => none
  | f :: g, x =>
    match frame_lookup f x with
    | some o => some o
    | none => scope_query g x

/-- Helper for `scope_set`: whether the frame already binds the symbol. -/
def frame_has (f : Frame) (x : String) : Bool := (frame_lookup f x).isSome

/-- Helper for `scope_set`: replace the existing binding in place. -/
def frame_update : Frame → String → Obj → Frame
  | [], _, _ => []
  | (sym, o) :: bs, x, v =>
    if sym = x then (sym, v) :: bs else (sym, o) :: frame_update bs x v

/-- C function `scope_set`, acting on a single frame (the C code is only ever
handed the innermost frame or a freshly allocated child): if the symbol is
already bound in this frame the binding is updated in place, otherwise a new
binding is prepended.  The `SCLISP_NOMEM` path is not modelled. -/
def scope_set (f : Frame) (x : String) (v : Obj) : Frame :=
  if frame_has f x then frame_update f x v else (x, v) :: f

/-- The call `scope_set(s, s->scope, sym, obj)`: update the innermost frame
of the interpreter's chain.  (The chain is never empty after init.) -/
def scope_set_top (s : Interp) (x : String) (v : Obj) : Interp :=
  match s.scope with
  | [] => s
  | f :: g => { s with scope := scope_set f x v :: g }

/-- C function `scope_pop_to_parent`.  Note the C code reports the BUG but
still pops when asked to pop the root frame (the scope chain becomes NULL);
popping an empty chain dereferences NULL in C and is modelled as the same
BUG report with the chain left empty. -/
def scope_pop_to_parent (s : Interp) : Interp :=
  match s.scope with
  | [] => reportErr s SCLISP_BUG (some "BUG - attempted to pop root scope")
  | [_] =>
    { reportErr s SCLISP_BUG (some "BUG - attempted to pop root scope") with
        scope := [] }
  | _ :: g => { s with scope := g }

/-- C function `internal_car`: the car of a cell; any non-cell (including
nil) is returned unchanged. -/
def internal_car : Obj → Obj
  | .cell a _ => a
  | o => o

/-- C function `internal_cdr`: the cdr of a cell; nil for any non-cell. -/
def internal_cdr : Obj → Obj
  | .cell _ d => d
  | _ => .nil

/-- The accumulating loop of C `internal_reverse`:
`reversed = internal_cons(s, car, reversed)` while the cursor is non-nil.
When the cursor is a non-nil atom (improper tail) the loop runs once more
with `car = cdr = the atom` and then stops. -/
def reverse_loop : Obj → Obj → Obj
  | .nil, acc => acc
  | .cell a d, acc => reverse_loop d (.cell a acc)
  | o, acc => .cell o acc

/-- C function `internal_reverse`. -/
def internal_reverse (list : Obj) : Obj :=
  if list = .nil then .nil
  else if is_atom list then list
  else
    let car := internal_car list
    let cdr := internal_cdr list
    if car ≠ .nil ∧ is_atom cdr then .cell cdr car
    else reverse_loop list .nil

/-! ## The printer (`internal_repr`) -/

/-- Decimal rendering of a C `long` via `snprintf("%ld", ...)`. -/
def intRender (n : Int) : String :=
  if n < 0 then "-" ++ Nat.repr n.natAbs else Nat.repr n.toNat

/-- Zero-padded six-digit fraction field. -/
def pad6 (m : Nat) : String :=
  let s := Nat.repr m
  String.mk (List.replicate (6 - s.length) '0') ++ s

/-- Rendering of a real via `snprintf("%.6f", ...)`: fixed point with six
fractional digits.  The value is rounded to six decimals
(`⌊q·10⁶ + 1/2⌋`, computed on the numerator/denominator so the kernel can
evaluate it); the exact IEEE tie-breaking of `printf` is abstracted (no
claim depends on it). -/
def fmt_real (q : Rat) : String :=
  let r : Rat := q * 1000000
  let n : Int := Int.fdiv (2 * r.num + r.den) (2 * r.den)
  if n < 0 then
    "-" ++ Nat.repr (n.natAbs / 1000000) ++ "." ++ pad6 (n.natAbs % 1000000)
  else
    Nat.repr (n.toNat / 1000000) ++ "." ++ pad6 (n.toNat % 1000000)

/-- The trailing-zero trimming loop in `internal_repr_helper`'s REAL case
(`while (buf[offset+len-1]=='0' && buf[offset+len-2]!='.') --len;`),
expressed on the reversed character list. -/
def trim_zeros_rev : List Char → List Char
  | '0' :: c :: rest =>
    if c = '.' then '0' :: c :: rest else trim_zeros_rev (c :: rest)
  | l => l

/-- Apply the REAL trailing-zero trim to a rendered string. -/
def fmt_trim (s : String) : String :=
  String.mk (trim_zeros_rev s.data.reverse).reverse

/-- The atom arm of `internal_repr_helper`: the full (untruncated) rendering
of a non-cell object; the caller clamps it to the remaining buffer space. -/
def atom_render : Obj → String
  | .nil => "nil"
  | .integer n _ => intRender n
  | .real q => fmt_trim (fmt_real q)
  | .str s _ => "\"" ++ s ++ "\""
  | .symbol s => s
  | .func _ _ => "<func>"
  | .builtin _ => "<builtin>"
  | .cell _ _ => ""

/-- Structural size of an object, used to seed the printer's fuel. -/
def objSize : Obj → Nat
  | .cell a d => objSize a + objSize d + 1
  | _ => 1

/-- Byte-budget clamp (the `strncpy`/`snprintf` truncation): at most the
first `n` characters of `s` (list-based so evaluation stops at the end of
the string rather than iterating the whole budget). -/
def str_take (s : String) (n : Nat) : String :=
  String.mk (s.data.take n)

/-- The list-printing `while` loop of C `internal_repr_helper`
(`while ((offset < max - 1) && obj) { ... }`).  `rh` is the helper itself,
already applied to its fuel.  The cursor `obj` is always a cell on entry
(a non-cell improper tail is rendered inside the loop body after " . ",
after which the cursor is set to NULL). -/
def repr_cells (rh : Obj → String → Nat → String) :
    Nat → Obj → String → Nat → String
  | 0, _, buf, _ => buf
  | fuel+1, obj, buf, max =>
    match obj with
    | .cell a d =>
      if buf.length < max - 1 then
        let buf1 := rh a buf max
        if d = .nil then buf1
        else if buf1.length < max - 1 then
          match d with
          | .cell _ _ => repr_cells rh fuel d (buf1.push ' ') max
          | _ => rh d (buf1 ++ str_take " . " (max - 1 - buf1.length)) max
        else buf1
      else buf
    | _ => buf

/-- C function `internal_repr_helper`: append the rendering of `obj` to
`buf`, never letting the buffer grow to `max - 1` characters or beyond
(the output is silently truncated; the C `snprintf`/`strncpy` calls write at
most `max - offset - 1` bytes and `offset` is clamped to `max - 1`).
The fuel is seeded with `objSize obj + 1` by `internal_repr` and never runs
out. -/
def repr_helper : Nat → Obj → String → Nat → String
  | 0, _, buf, _ => buf
  | fuel+1, obj, buf, max =>
    if max - 1 ≤ buf.length then buf
    else
      match obj with
      | .cell _ _ =>
        let buf2 := repr_cells (repr_helper fuel) fuel obj (buf.push '(') max
        if buf2.length < max - 1 then buf2.push ')' else buf2
      | _ => buf ++ str_take (atom_render obj) (max - 1 - buf.length)

/-- C function `internal_repr`: render into a zeroed 1024-byte buffer
(failure of the host allocator is not modelled). -/
def internal_repr (obj : Obj) : String :=
  repr_helper (objSize obj + 1) obj "" 1024

/-! ## Number scanning (`sc_scan_integer`, `sc_scan_real`) -/

def isDecDigit (c : Char) : Bool := '0' ≤ c && c ≤ '9'
def isOctDigit (c : Char) : Bool := '0' ≤ c && c ≤ '7'
def isHexDigit (c : Char) : Bool :=
  ('0' ≤ c && c ≤ '9') || ('a' ≤ c && c ≤ 'f') || ('A' ≤ c && c ≤ 'F')

def digitVal (c : Char) : Nat := c.toNat - '0'.toNat

def hexVal (c : Char) : Nat :=
  if '0' ≤ c && c ≤ '9' then c.toNat - '0'.toNat
  else if 'a' ≤ c && c ≤ 'f' then c.toNat - 'a'.toNat + 10
  else c.toNat - 'A'.toNat + 10

def digitsToNat (base : Nat) (dv : Char → Nat) (l : List Char) : Nat :=
  l.foldl (fun acc c => acc * base + dv c) 0

/-- C function `sc_scan_integer`: `sscanf("%li")` succeeding only when the
whole string is consumed.  `%li` accepts an optional sign followed by a
`0x`/`0X`-prefixed hexadecimal, a `0`-prefixed octal, or a decimal numeral.
(`sscanf`'s leading-whitespace skip is irrelevant: lexer tokens never start
with whitespace.) -/
def sc_scan_integer (str : String) : Option Int :=
  let (sign, cs) :=
    match str.data with
    | '+' :: t => ((1 : Int), t)
    | '-' :: t => ((-1 : Int), t)
    | l => (1, l)
  match cs with
  | [] => none
  | '0' :: rest =>
    match rest with
    | 'x' :: h =>
      if h ≠ [] ∧ h.all isHexDigit then
        some (sign * digitsToNat 16 hexVal h) else none
    | 'X' :: h =>
      if h ≠ [] ∧ h.all isHexDigit then
        some (sign * digitsToNat 16 hexVal h) else none
    | _ =>
      if rest.all isOctDigit then
        some (sign * digitsToNat 8 digitVal rest) else none
  | l =>
    if l.all isDecDigit then some (sign * digitsToNat 10 digitVal l) else none

/-- C function `sc_scan_real`: `sscanf("%lf")` succeeding only when the whole
string is consumed.  Accepted shape: optional sign, then either `digits`,
`digits.digits*`, or `.digits`, then an optional exponent `e|E`, optional
sign, digits.  (The `inf`/`nan`/hex-float spellings glibc also accepts are
not modelled; no lexer token in the claims takes those shapes.) -/
def sc_scan_real (str : String) : Option Rat :=
  let (sign, cs) :=
    match str.data with
    | '+' :: t => ((1 : Rat), t)
    | '-' :: t => ((-1 : Rat), t)
    | l => (1, l)
  let ipart := cs.takeWhile isDecDigit
  let rest1 := cs.drop ipart.length
  let (fpart, rest2) :=
    match rest1 with
    | '.' :: t => (t.takeWhile isDecDigit, t.drop (t.takeWhile isDecDigit).length)
    | _ => ([], rest1)
  let hasDot : Bool := match rest1 with | '.' :: _ => true | _ => false
  if ipart.length + fpart.length = 0 then none
  else
    let mant : Rat :=
      (digitsToNat 10 digitVal ipart : Nat) +
        (digitsToNat 10 digitVal fpart : Nat) / ((10 : Rat) ^ fpart.length)
    let finish : List Char → Option Rat := fun expRest =>
      match expRest with
      | [] => some (sign * mant)
      | e :: t =>
        if e = 'e' ∨ e = 'E' then
          let (esign, ds) :=
            match t with
            | '+' :: u => ((1 : Int), u)
            | '-' :: u => ((-1 : Int), u)
            | u => (1, u)
          if ds ≠ [] ∧ ds.all isDecDigit then
            let ev : Nat := digitsToNat 10 digitVal ds
            if esign < 0 then some (sign * mant / ((10 : Rat) ^ ev))
            else some (sign * mant * ((10 : Rat) ^ ev))
          else none
        else none
    let _ := hasDot
    finish rest2

/-! ## The lexer (`lex_expr`) -/

/-- Token kinds/payloads (`enum TokenTag` / `struct Token`).  `TOK_UNKOWN`
is only an intermediate marker in C and never reaches the token stream. -/
inductive Token where
  | integer (n : Int) : Token
  | real (q : Rat) : Token
  | str (s : String) : Token
  | symbol (s : String) : Token
  | nil : Token
  | lparen : Token
  | rparen : Token
  | quote : Token
deriving DecidableEq

/-- The double-quote and apostrophe characters (written via code points to
keep the source free of quote-character literals). -/
def cDQ : Char := Char.ofNat 34
def cSQ : Char := Char.ofNat 39

/-- C `isspace` in the default locale. -/
def cIsSpace (c : Char) : Bool :=
  c = ' ' || c = Char.ofNat 9 || c = Char.ofNat 10 || c = Char.ofNat 11 ||
    c = Char.ofNat 12 || c = Char.ofNat 13

/-- The `append_tok` classification for a completed non-special token:
integer scan, then real scan, then the literal `nil`, otherwise a symbol. -/
def classify (buf : List Char) : Token :=
  let s := String.mk buf
  match sc_scan_integer s with
  | some n => .integer n
  | none =>
    match sc_scan_real s with
    | some q => .real q
    | none => if s = "nil" then .nil else .symbol s

/-- A character that extends an ordinary (non-string) token: anything other
than a double quote, parenthesis, apostrophe, or whitespace. -/
def plainTokChar (c : Char) : Bool :=
  !(c = cDQ || c = '(' || c = ')' || c = cSQ || cIsSpace c)

/-- The `while (*expr)` loop of C `lex_expr`.  State: remaining input,
token buffer (`buf`/`off`, capacity 128 so at most 127 token bytes), the
string-literal flag `quote`, and the reversed token list built so far.
`Except` carries the `(code, message)` of a reported error.

The C loop visits a `)`/whitespace delimiter twice (it backs `expr` up one
character when flushing a pending token); here the flush and the second
visit are fused into one step, which is possible because on the second
visit the buffer is empty and the delimiter is handled by the single-char
or whitespace arm.  The buffer-overflow check sits at the top of the loop,
before the current character is examined, exactly as in C. -/
def lex_loop : List Char → List Char → Bool → List Token →
    Except (Int × String) (List Token)
  | [], _, _, acc => .ok acc.reverse
  | c :: rest, buf, q, acc =>
    if buf.length = 127 then
      .error (SCLISP_OVERFLOW, "token length exceeds buffer size")
    else if c = cDQ then
      if !q then lex_loop rest buf true acc
      else lex_loop rest [] false (.str (String.mk buf) :: acc)
    else if !q ∧ buf ≠ [] ∧ (c = ')' ∨ cIsSpace c) then
      -- flush the pending token, then handle the delimiter itself
      if c = ')' then lex_loop rest [] q (.rparen :: classify buf :: acc)
      else lex_loop rest [] q (classify buf :: acc)
    else if !q ∧ cIsSpace c then lex_loop rest buf q acc
    else
      let buf' := buf ++ [c]
      if !q ∧ buf'.length = 1 ∧ (c = '(' ∨ c = ')' ∨ c = cSQ) then
        let t : Token := if c = '(' then .lparen
                         else if c = ')' then .rparen else .quote
        lex_loop rest [] q (t :: acc)
      else if rest = [] then
        -- `++expr; if (*expr) continue;` falls through to append_tok
        .ok ((classify buf' :: acc)).reverse
      else lex_loop rest buf' q acc

/-- C function `lex_expr` (the `SCLISP_NOMEM` paths are not modelled). -/
def lex_expr (expr : String) : Except (Int × String) (List Token) :=
  lex_loop expr.data [] false []

/-! ## The reader (`parse_expr_helper` / `parse_expr`) -/

/-- Atom construction for one token (the `some_*` constructor calls in the
switch of `parse_expr_helper`); `TOK_NIL` yields the empty reference. -/
def tokenObj : Token → Obj
  | .integer n => .integer n false
  | .real q => .real q
  | .str s => .str s false
  | .symbol s => .symbol s
  | _ => .nil

/-- The quote-rewriting loop (`while (quoting) { ... }`): wrap an expression
in `n` layers of `(quote ·)`. -/
def wrapQuotes : Nat → Obj → Obj
  | 0, o => o
  | n+1, o => wrapQuotes n (.cell (.symbol "quote") (.cell o .nil))

/-- Build the proper list the `dummy`/`tail` chain of `parse_expr_helper`
accumulates (items are gathered in reverse). -/
def mkListObj (items : List Obj) : Obj :=
  items.foldl (fun acc o => .cell o acc) .nil

/-- C function `parse_expr_helper`.

State: remaining tokens, `inList` (whether the single `++pcount` for this
invocation has happened), pending `quoting` count, and the reversed items
accumulated for the current list.  Returns the parsed object and the
remaining tokens; as in C, a sub-list return leaves the matching `)` token
unconsumed for the caller to skip.

Two token streams make the C code dereference a NULL token pointer (a quote
as the last token, and an exhausted sub-list whose result is appended and
then `*tok = (*tok)->next` runs on NULL); both are modelled as a reported
`SCLISP_BUG` with a nil result, and neither is reachable from the claims.
The fuel only guards that same unreachable corner (`parse_expr` seeds it
above the maximal number of steps). -/
def parse_items : Nat → Interp → List Token → Bool → Nat → List Obj →
    Interp × Obj × List Token
  | 0, s, toks, _, _, _ =>
    (reportErr s SCLISP_BUG (some "model artifact: parser fuel exhausted"),
      .nil, toks)
  | _+1, s, [], _, _, acc => (s, mkListObj acc, [])
  | fuel+1, s, t :: rest, inList, quoting, acc =>
    match t with
    | .lparen =>
      if inList then
        match parse_items fuel s (t :: rest) false 0 [] with
        | (s1, sub, toks1) =>
          if s1.le ≠ 0 then (s1, .nil, toks1)
          else
            match toks1 with
            | [] =>
              -- C would run `*tok = (*tok)->next` on a NULL token here
              (reportErr s1 SCLISP_BUG
                  (some "model artifact: C dereferences a null token"),
                .nil, [])
            | _ :: toks2 =>
              parse_items fuel s1 toks2 inList 0 (wrapQuotes quoting sub :: acc)
      else parse_items fuel s rest true quoting acc
    | .rparen =>
      if inList then (s, mkListObj acc, t :: rest)
      else (s, wrapQuotes quoting .nil, t :: rest)
    | .quote =>
      match rest with
      | [] =>
        -- C dereferences the NULL successor token
        (reportErr s SCLISP_BUG
            (some "model artifact: C dereferences a null token"), .nil, [])
      | .lparen :: _ =>
        match parse_items fuel s rest false 0 [] with
        | (s1, sub, toks1) =>
          if s1.le ≠ 0 then (s1, .nil, toks1)
          else
            let item := wrapQuotes (quoting + 1) sub
            if !inList then (s1, item, toks1)
            else
              match toks1 with
              | [] =>
                (reportErr s1 SCLISP_BUG
                    (some "model artifact: C dereferences a null token"),
                  .nil, [])
              | _ :: toks2 => parse_items fuel s1 toks2 inList 0 (item :: acc)
      | _ => parse_items fuel s rest inList (quoting + 1) acc
    | tok =>
      let item := wrapQuotes quoting (tokenObj tok)
      -- at pcount == 0 C returns without advancing past the token
      if !inList then (s, item, t :: rest)
      else parse_items fuel s rest inList 0 (item :: acc)

/-- C function `parse_expr`: lex, then parse the first expression. -/
def parse_expr (s : Interp) (expr : String) : Interp × Obj :=
  match lex_expr expr with
  | .error (code, msg) => (reportErr s code (some msg), .nil)
  | .ok toks =>
    match parse_items (2 * toks.length + 4) s toks false 0 [] with
    | (s1, obj, _) => (s1, obj)

/-! ## Arithmetic (`math_op`, `MATH_FUNC`) -/

/-- `enum MathOp`. -/
inductive MathOp where
  | mul | div | add | sub | mod
deriving DecidableEq

/-- The numeric accumulator (`struct Atom acc` restricted to the INTEGER and
REAL variants it can actually hold). -/
inductive NumAtom where
  | int (n : Int) : NumAtom
  | real (q : Rat) : NumAtom
deriving DecidableEq

/-- `some_number(s, &acc)`: box the accumulator (dynamically allocated, so
not a static instance). -/
def some_number : NumAtom → Obj
  | .int n => .integer n false
  | .real q => .real q

/-- C `fmod(x, y)`: `x - trunc(x/y)·y`, with truncation toward zero
(computed as the truncated division of the quotient's numerator by its
denominator). -/
def ratFmod (x y : Rat) : Rat :=
  x - (Rat.ofInt (Int.tdiv (x / y).num (x / y).den)) * y

/-- C function `math_op`: combine the accumulator with the evaluated operand
`r`.  nil counts as integer 0; a non-numeric operand is `SCLISP_BADARG`.
Either side being real promotes the other.  Division and modulo by zero are
`SCLISP_BADARG`.  Integer `/` and `%` follow C (truncation toward zero);
real modulo uses `fmod` (the build is modelled with `SCLISP_FMOD_SUPPORT`
on, CMake's default). -/
def math_op (l : NumAtom) (r : Obj) (op : MathOp) : Except Int NumAtom :=
  let ar? : Option NumAtom :=
    match r with
    | .nil => some (.int 0)
    | .integer n _ => some (.int n)
    | .real q => some (.real q)
    | _ => none
  match ar? with
  | none => .error SCLISP_BADARG
  | some ar =>
    match l, ar with
    | .int a, .int b =>
      match op with
      | .mul => .ok (.int (a * b))
      | .div => if b = 0 then .error SCLISP_BADARG else .ok (.int (Int.tdiv a b))
      | .add => .ok (.int (a + b))
      | .sub => .ok (.int (a - b))
      | .mod => if b = 0 then .error SCLISP_BADARG else .ok (.int (Int.tmod a b))
    | la, ra =>
      -- at least one side is real: promote both (`_promote_left` twice)
      let a : Rat := match la with | .int n => (n : Rat) | .real q => q
      let b : Rat := match ra with | .int n => (n : Rat) | .real q => q
      match op with
      | .mul => .ok (.real (a * b))
      | .div => if b = 0 then .error SCLISP_BADARG else .ok (.real (a / b))
      | .add => .ok (.real (a + b))
      | .sub => .ok (.real (a - b))
      | .mod => if b = 0 then .error SCLISP_BADARG else .ok (.real (ratFmod a b))

/-! ## Comparison (`logic_op`) -/

/-- `enum LogicOp`. -/
inductive LogicOp where
  | lt | lte | gt | gte | eq
deriving DecidableEq

/-- The mutable operand copies (`struct Atom mut_l, mut_r`) of `logic_op`:
after `_verify_arg` they hold an integer, real, or string. -/
inductive LAtom where
  | int (n : Int) : LAtom
  | real (q : Rat) : LAtom
  | str (s : String) : LAtom
deriving DecidableEq

/-- `_verify_arg`: nil becomes integer 0; integers, reals, and strings pass
through; anything else is a `SCLISP_BADARG`. -/
def latomOf : Obj → Option LAtom
  | .nil => some (.int 0)
  | .integer n _ => some (.int n)
  | .real q => some (.real q)
  | .str a _ => some (.str a)
  | _ => none

/-- One `_promote_left(left, right)` step: an integer next to a real widens
to real; a non-string next to a string is rendered through the printer
(the C code wraps the atom in a transient `struct Object` and calls
`internal_repr`). -/
def logic_promote (left right : LAtom) : LAtom :=
  match right, left with
  | .real _, .int n => .real n
  | .str _, .int n => .str (internal_repr (.integer n false))
  | .str _, .real q => .str (internal_repr (.real q))
  | _, l => l

/-- `_checked_compare`: after the two promotions both operands have the same
variant; the C code branches on the left tag and reads the right payload at
the same variant.  (The mixed arms below are unreachable.) -/
def latom_compare (l r : LAtom) (op : LogicOp) : Bool :=
  match l, r with
  | .int a, .int b =>
    match op with
    | .lt => a < b | .lte => a ≤ b | .gt => a > b | .gte => a ≥ b | .eq => a = b
  | .real a, .real b =>
    match op with
    | .lt => a < b | .lte => a ≤ b | .gt => a > b | .gte => a ≥ b | .eq => a = b
  | .str a, .str b =>
    match op with
    | .lt => a < b | .lte => a ≤ b | .gt => a > b | .gte => a ≥ b | .eq => a = b
  | _, _ => false

/-- C function `logic_op`.  When `op` is `==` and both operands are static
instances, equality is identity on the static objects; otherwise operands
are verified, promoted pairwise (integer → real → string, with the printer
as the string coercion), and compared; the result is the canonical static
true/false.  Errors yield nil with the error recorded. -/
def logic_op (s : Interp) (l r : Obj) (op : LogicOp) : Interp × Obj :=
  if op = .eq ∧ isStaticMagic l ∧ isStaticMagic r then
    (s, if l = r then SC_STATIC_TRUE else SC_STATIC_FALSE)
  else
    match latomOf l with
    | none =>
      (reportErr s SCLISP_BADARG
          (some "logic op needs integer, real, or string operands"), .nil)
    | some ml =>
      match latomOf r with
      | none =>
        (reportErr s SCLISP_BADARG
            (some "logic op needs integer, real, or string operands"), .nil)
      | some mr =>
        let ml1 := logic_promote ml mr
        let mr1 := logic_promote mr ml1
        (s, if latom_compare ml1 mr1 op then SC_STATIC_TRUE else SC_STATIC_FALSE)

/-! ## `sc_getline` and the builtin library -/

/-- C function `sc_getline`: requires a getchar callback
(`SCLISP_UNSUPPORTED` otherwise) and reads one line, stopping at a newline
or EOF (modelled as exhaustion of the host input).  The returned buffer is
the line without its newline. -/
def sc_getline (s : Interp) : Interp × String :=
  if !s.hasGetchar then (reportErr s SCLISP_UNSUPPORTED none, "")
  else
    let line := s.input.takeWhile (fun c => c ≠ Char.ofNat 10)
    let rest := s.input.drop line.length
    ({ s with input := rest.drop 1 }, String.mk line)

def NEEDS_ONE_ARG : String := "needs exactly one argument"
def NEEDS_LTE_TWO_ARGS : String := "accepts no more than two arguments"
def NEEDS_TWO_ARG : String := "needs exactly two arguments"

/-- C macro `BUILTIN_FUNC_ONE_ARG`: reject more than one argument, then
evaluate the first; `none` signals that the caller must return nil (either
a reported BADARG or an error during evaluation). -/
def eval_one_arg (ev : Interp → Obj → Interp × Obj) (s : Interp) (args : Obj) :
    Interp × Option Obj :=
  if internal_cdr args ≠ .nil then
    (reportErr s SCLISP_BADARG (some NEEDS_ONE_ARG), none)
  else
    match ev s (internal_car args) with
    | (s1, a) => if s1.le ≠ 0 then (s1, none) else (s1, some a)

/-- C macro `BUILTIN_FUNC_LTE_TWO_ARGS`. -/
def eval_lte_two (ev : Interp → Obj → Interp × Obj) (s : Interp) (args : Obj) :
    Interp × Option (Obj × Obj) :=
  if internal_cdr (internal_cdr args) ≠ .nil then
    (reportErr s SCLISP_BADARG (some NEEDS_LTE_TWO_ARGS), none)
  else
    match ev s (internal_car args) with
    | (s1, a1) =>
      if s1.le ≠ 0 then (s1, none)
      else
        match ev s1 (internal_car (internal_cdr args)) with
        | (s2, a2) => if s2.le ≠ 0 then (s2, none) else (s2, some (a1, a2))

/-- C macro `BUILTIN_FUNC_TWO_ARG`. -/
def eval_two_arg (ev : Interp → Obj → Interp × Obj) (s : Interp) (args : Obj) :
    Interp × Option (Obj × Obj) :=
  if args = .nil ∨ internal_cdr args = .nil ∨
      internal_cdr (internal_cdr args) ≠ .nil then
    (reportErr s SCLISP_BADARG (some NEEDS_TWO_ARG), none)
  else
    match ev s (internal_car args) with
    | (s1, a1) =>
      if s1.le ≠ 0 then (s1, none)
      else
        match ev s1 (internal_car (internal_cdr args)) with
        | (s2, a2) => if s2.le ≠ 0 then (s2, none) else (s2, some (a1, a2))

/-- The argument fold of `MATH_FUNC` (`for (; (car = internal_car(args)) ||
args; args = internal_cdr(args))`; the condition is equivalent to
`args != NULL` since `internal_car(NULL) == NULL`). -/
def math_loop (ev : Interp → Obj → Interp × Obj) (op : MathOp) :
    Nat → Interp → NumAtom → Obj → Interp × Obj
  | 0, s, _, _ =>
    (reportErr s SCLISP_BUG (some "model artifact: fuel exhausted"), .nil)
  | fuel+1, s, acc, args =>
    if args = .nil then (s, some_number acc)
    else
      match ev s (internal_car args) with
      | (s1, ecar) =>
        if s1.le ≠ 0 then (s1, .nil)
        else
          match math_op acc ecar op with
          | .error res => (reportErr s1 res (some "math op failed"), .nil)
          | .ok acc' => math_loop ev op fuel s1 acc' (internal_cdr args)

/-- C macro `MATH_FUNC(_name, _op, _init)`: the accumulator is seeded with
`(_init * _init) & 1` (written `% 2` here; the seeds used are 0, 1, and -1,
for which the two agree), and when `_init < 0` and at least two operands are
present the seed is replaced by the first evaluated operand (nil counting
as 0, non-numerics rejected with a message-less `SCLISP_BADARG`). -/
def math_builtin (ev : Interp → Obj → Interp × Obj) (fuel : Nat)
    (op : MathOp) (init : Int) (s : Interp) (args : Obj) : Interp × Obj :=
  let acc0 : NumAtom := .int ((init * init) % 2)
  if init < 0 ∧ internal_cdr args ≠ .nil then
    match ev s (internal_car args) with
    | (s1, ecar) =>
      if s1.le ≠ 0 then (s1, .nil)
      else
        match ecar with
        | .nil => math_loop ev op fuel s1 (.int 0) (internal_cdr args)
        | .integer n _ => math_loop ev op fuel s1 (.int n) (internal_cdr args)
        | .real q => math_loop ev op fuel s1 (.real q) (internal_cdr args)
        | _ => (reportErr s1 SCLISP_BADARG none, .nil)
  else math_loop ev op fuel s acc0 args

/-! ## Builtins (each parameterised by the evaluator `ev`) -/

/-- C function `builtin_set`.  `(set name value)` binds `name` in the
innermost frame to the evaluated value; `(set (name p...) body...)` is sugar
for binding `name` to `(lambda (p...) body...)`; anything else is
`SCLISP_BADARG`.  The bound value is returned. -/
def builtin_set (ev : Interp → Obj → Interp × Obj) (s : Interp) (args : Obj) :
    Interp × Obj :=
  let left := internal_car args
  let right := internal_car (internal_cdr args)
  let rest := internal_cdr (internal_cdr args)
  if is_symbol left = false ∨ rest ≠ .nil then
    let lcar := internal_car left
    if is_cell left ∧ is_symbol lcar then
      -- function assignment sugar: some_function(cdr(left), cdr(args))
      let eright := Obj.func (internal_cdr left) (internal_cdr args)
      match lcar with
      | .symbol name => (scope_set_top s name eright, eright)
      | _ => (reportErr s SCLISP_BADARG (some "set - bad first operand"), .nil)
    else (reportErr s SCLISP_BADARG (some "set - bad first operand"), .nil)
  else
    match ev s right with
    | (s1, eright) =>
      if s1.le ≠ 0 then (s1, .nil)
      else
        match left with
        | .symbol name => (scope_set_top s1 name eright, eright)
        | _ => (reportErr s1 SCLISP_BADARG (some "set - bad first operand"), .nil)

/-- C macro `CARCDR_FUNC`: evaluate the single argument and apply
`internal_car` or `internal_cdr` to the result. -/
def builtin_carcdr (sel : Obj → Obj) (ev : Interp → Obj → Interp × Obj)
    (s : Interp) (args : Obj) : Interp × Obj :=
  match eval_one_arg ev s args with
  | (s1, none) => (s1, .nil)
  | (s1, some a) => (s1, sel a)

/-- C function `builtin_cons`: at most two evaluated arguments; a missing
second argument evaluates to nil. -/
def builtin_cons (ev : Interp → Obj → Interp × Obj) (s : Interp) (args : Obj) :
    Interp × Obj :=
  match eval_lte_two ev s args with
  | (s1, none) => (s1, .nil)
  | (s1, some (a, b)) => (s1, .cell a b)

/-- C function `builtin_eval`: evaluate the single argument, then evaluate
the result again. -/
def builtin_eval (ev : Interp → Obj → Interp × Obj) (s : Interp) (args : Obj) :
    Interp × Obj :=
  match eval_one_arg ev s args with
  | (s1, none) => (s1, .nil)
  | (s1, some a) => ev s1 a

/-- C function `builtin_reverse`. -/
def builtin_reverse (ev : Interp → Obj → Interp × Obj) (s : Interp)
    (args : Obj) : Interp × Obj :=
  match eval_one_arg ev s args with
  | (s1, none) => (s1, .nil)
  | (s1, some a) => (s1, internal_reverse a)

/-- C function `builtin_list` (recursive: conses the evaluated car onto the
listing of the cdr). -/
def builtin_list (ev : Interp → Obj → Interp × Obj) :
    Nat → Interp → Obj → Interp × Obj
  | 0, s, _ =>
    (reportErr s SCLISP_BUG (some "model artifact: fuel exhausted"), .nil)
  | fuel+1, s, args =>
    if args = .nil then (s, .nil)
    else
      match ev s (internal_car args) with
      | (s1, ecar) =>
        if s1.le ≠ 0 then (s1, .nil)
        else
          match builtin_list ev fuel s1 (internal_cdr args) with
          | (s2, ecdr) =>
            if s2.le ≠ 0 then (s2, .nil)
            else (s2, .cell ecar ecdr)

/-- C function `builtin_quote`: exactly one argument, returned unevaluated. -/
def builtin_quote (s : Interp) (args : Obj) : Interp × Obj :=
  if internal_cdr args ≠ .nil then
    (reportErr s SCLISP_BADARG (some NEEDS_ONE_ARG), .nil)
  else (s, internal_car args)

/-- C function `builtin_lambda`: `some_function(car(args), cdr(args))`, both
taken unevaluated. -/
def builtin_lambda (s : Interp) (args : Obj) : Interp × Obj :=
  (s, .func (internal_car args) (internal_cdr args))

/-- C function `builtin_cond`: branches are `(test consequent)` pairs;
tests are evaluated in order and the first true test's consequent is
evaluated and returned; with no true test the result is nil. -/
def builtin_cond (ev : Interp → Obj → Interp × Obj) :
    Nat → Interp → Obj → Interp × Obj
  | 0, s, _ =>
    (reportErr s SCLISP_BUG (some "model artifact: fuel exhausted"), .nil)
  | fuel+1, s, args =>
    if args = .nil then (s, .nil)
    else
      let car := internal_car args
      if is_cell car = false ∨ internal_cdr (internal_cdr car) ≠ .nil then
        (reportErr s SCLISP_BADARG (some "cond branch needs two arguments"),
          .nil)
      else
        match ev s (internal_car car) with
        | (s1, ecar) =>
          let res := is_true ecar
          if s1.le ≠ 0 then (s1, .nil)
          else if res then ev s1 (internal_car (internal_cdr car))
          else builtin_cond ev fuel s1 (internal_cdr args)

/-- C macro `UNARY_BOOL_FUNC`: evaluate the single argument and return the
canonical static true/false of the predicate. -/
def unary_bool_builtin (pred : Obj → Bool) (ev : Interp → Obj → Interp × Obj)
    (s : Interp) (args : Obj) : Interp × Obj :=
  match eval_one_arg ev s args with
  | (s1, none) => (s1, .nil)
  | (s1, some a) =>
    (s1, if pred a then SC_STATIC_TRUE else SC_STATIC_FALSE)

/-- C macro `LOGIC_FUNC`: exactly two evaluated arguments fed to
`logic_op`. -/
def logic_builtin (op : LogicOp) (ev : Interp → Obj → Interp × Obj)
    (s : Interp) (args : Obj) : Interp × Obj :=
  match eval_two_arg ev s args with
  | (s1, none) => (s1, .nil)
  | (s1, some (a, b)) => logic_op s1 a b op

/-- The loop of C `builtin_and`, carrying the last evaluated value
(initially the canonical static true).  The loop condition
`(car = internal_car(args)) || args` is equivalent to `args != NULL`. -/
def and_loop (ev : Interp → Obj → Interp × Obj) :
    Nat → Interp → Obj → Obj → Interp × Obj
  | 0, s, _, _ =>
    (reportErr s SCLISP_BUG (some "model artifact: fuel exhausted"), .nil)
  | fuel+1, s, args, ecar =>
    if args = .nil then (s, ecar)
    else
      match ev s (internal_car args) with
      | (s1, e) =>
        if s1.le ≠ 0 then (s1, .nil)
        else if is_true e = false then (s1, .nil)
        else and_loop ev fuel s1 (internal_cdr args) e

/-- C function `builtin_and`. -/
def builtin_and (ev : Interp → Obj → Interp × Obj) (fuel : Nat) (s : Interp)
    (args : Obj) : Interp × Obj :=
  and_loop ev fuel s args SC_STATIC_TRUE

/-- C function `builtin_or`: evaluate operands left to right, returning the
first truthy value; nil if none is truthy. -/
def builtin_or (ev : Interp → Obj → Interp × Obj) :
    Nat → Interp → Obj → Interp × Obj
  | 0, s, _ =>
    (reportErr s SCLISP_BUG (some "model artifact: fuel exhausted"), .nil)
  | fuel+1, s, args =>
    if args = .nil then (s, .nil)
    else
      match ev s (internal_car args) with
      | (s1, e) =>
        if s1.le ≠ 0 then (s1, .nil)
        else if is_true e then (s1, e)
        else builtin_or ev fuel s1 (internal_cdr args)

/-- C function `builtin_typeof`: the static type-name string of the single
evaluated argument. -/
def builtin_typeof (ev : Interp → Obj → Interp × Obj) (s : Interp)
    (args : Obj) : Interp × Obj :=
  match eval_one_arg ev s args with
  | (s1, none) => (s1, .nil)
  | (s1, some a) =>
    match a with
    | .nil => (s1, SC_STATIC_NIL_STR)
    | .cell _ _ => (s1, SC_STATIC_CELL_STR)
    | .integer _ _ => (s1, SC_STATIC_INTEGER_STR)
    | .real _ => (s1, SC_STATIC_REAL_STR)
    | .str _ _ => (s1, SC_STATIC_STRING_STR)
    | .symbol _ => (s1, SC_STATIC_SYMBOL_STR)
    | .func _ _ => (s1, SC_STATIC_FUNCTION_STR)
    | .builtin _ => (s1, SC_STATIC_BUILTIN_STR)

/-- C function `builtin_println`: requires a string argument
(`SCLISP_UNSUPPORTED` otherwise), prints it with a newline, returns nil. -/
def builtin_println (ev : Interp → Obj → Interp × Obj) (s : Interp)
    (args : Obj) : Interp × Obj :=
  match eval_one_arg ev s args with
  | (s1, none) => (s1, .nil)
  | (s1, some a) =>
    match a with
    | .str out _ =>
      ({ s1 with output := s1.output ++ [out ++ String.mk [Char.ofNat 10]] },
        .nil)
    | _ =>
      (reportErr s1 SCLISP_UNSUPPORTED (some "cannot print non-string object"),
        .nil)

/-- C function `builtin_prompt`: optionally print a string prompt, then read
one line through the getchar callback and return it as a string atom. -/
def builtin_prompt (ev : Interp → Obj → Interp × Obj) (s : Interp)
    (args : Obj) : Interp × Obj :=
  match eval_one_arg ev s args with
  | (s1, none) => (s1, .nil)
  | (s1, some a) =>
    let s2 :=
      match a with
      | .str p _ => { s1 with output := s1.output ++ [p] }
      | _ => s1
    match sc_getline s2 with
    | (s3, line) =>
      if s3.le ≠ 0 then (s3, .nil)
      else (s3, .str line false)

/-! ## Function application and the evaluator core -/

/-- The pairwise binding loop of C `scope_enter_with`.  The cursors are the
current car/cdr of the parameter list and of the argument list; the loop
continues while both sides still offer something.  Each parameter must be a
symbol (otherwise `SCLISP_BUG`); the matching argument expression is
evaluated in the *caller's* scope and bound in the child frame.  `none`
signals an error (the C code frees the child and returns without pushing). -/
def enter_loop (ev : Interp → Obj → Interp × Obj) :
    Nat → Interp → Frame → Obj → Obj → Obj → Obj → Interp × Option Frame
  | 0, s, _, _, _, _, _ =>
    (reportErr s SCLISP_BUG (some "model artifact: fuel exhausted"), none)
  | fuel+1, s, child, sc, sd, bc, bd =>
    if (sc ≠ .nil ∨ sd ≠ .nil) ∧ (bc ≠ .nil ∨ bd ≠ .nil) then
      match sc with
      | .symbol sym =>
        match ev s bc with
        | (s1, v) =>
          let child1 := scope_set child sym v
          if s1.le ≠ 0 then (s1, none)
          else
            enter_loop ev fuel s1 child1 (internal_car sd) (internal_cdr sd)
              (internal_car bd) (internal_cdr bd)
      | _ =>
        (reportErr s SCLISP_BUG (some "BUG - requested binding to non-symbol"),
          none)
    else (s, some child)

/-- C function `scope_enter_with`: build the child frame then push it
(`child->parent = s->scope; s->scope = child`).  On error the chain is left
unchanged with the error recorded. -/
def scope_enter_with (ev : Interp → Obj → Interp × Obj) (fuel : Nat)
    (s : Interp) (symbols bindings : Obj) : Interp :=
  match enter_loop ev fuel s [] (internal_car symbols) (internal_cdr symbols)
      (internal_car bindings) (internal_cdr bindings) with
  | (s1, none) => s1
  | (s1, some child) => { s1 with scope := child :: s1.scope }

/-- The body loop of C `eval_function`: evaluate each body expression in
turn keeping the last result; an error abandons the remaining expressions
(`none`; note the C code returns *without* popping the frame in that
case). -/
def body_loop (ev : Interp → Obj → Interp × Obj) :
    Nat → Interp → Obj → Obj → Obj → Interp × Option Obj
  | 0, s, _, _, _ =>
    (reportErr s SCLISP_BUG (some "model artifact: fuel exhausted"), none)
  | fuel+1, s, c, d, res =>
    if c = .nil ∧ d = .nil then (s, some res)
    else
      match ev s c with
      | (s1, r) =>
        if s1.le ≠ 0 then (s1, none)
        else body_loop ev fuel s1 (internal_car d) (internal_cdr d) r

/-- C function `eval_function`: enter a frame binding parameters to the
evaluated arguments, run the body, pop the frame, and return the last body
expression's value. -/
def eval_function (ev : Interp → Obj → Interp × Obj) (fuel : Nat) (s : Interp)
    (symbols args body : Obj) : Interp × Obj :=
  let s1 := scope_enter_with ev fuel s symbols args
  if s1.le ≠ 0 then (s1, .nil)
  else
    match body_loop ev fuel s1 (internal_car body) (internal_cdr body) .nil with
    | (s2, none) => (s2, .nil)
    | (s2, some res) =>
      let s3 := scope_pop_to_parent s2
      if s3.le ≠ 0 then (s3, .nil) else (s3, res)

/-- Dispatch on a builtin's function pointer: the `BUILTIN` arm of
`internal_eval`'s switch, mapping each installed callback to its body. -/
def apply_builtin (ev : Interp → Obj → Interp × Obj) (fuel : Nat) (b : BName)
    (s : Interp) (args : Obj) : Interp × Obj :=
  match b with
  | .set => builtin_set ev s args
  | .plus => math_builtin ev fuel .add 0 s args
  | .minus => math_builtin ev fuel .sub (-1) s args
  | .multiply => math_builtin ev fuel .mul 1 s args
  | .divide => math_builtin ev fuel .div (-1) s args
  | .mod => math_builtin ev fuel .mod (-1) s args
  | .car => builtin_carcdr internal_car ev s args
  | .cdr => builtin_carcdr internal_cdr ev s args
  | .cons => builtin_cons ev s args
  | .eval => builtin_eval ev s args
  | .reverse => builtin_reverse ev s args
  | .list => builtin_list ev fuel s args
  | .quote => builtin_quote s args
  | .lambda => builtin_lambda s args
  | .cond => builtin_cond ev fuel s args
  | .trueq => unary_bool_builtin is_true ev s args
  | .falseq => unary_bool_builtin is_false ev s args
  | .atomq => unary_bool_builtin is_atom ev s args
  | .cellq => unary_bool_builtin is_cell ev s args
  | .nilq => unary_bool_builtin is_nil ev s args
  | .lt => logic_builtin .lt ev s args
  | .lte => logic_builtin .lte ev s args
  | .gt => logic_builtin .gt ev s args
  | .gte => logic_builtin .gte ev s args
  | .eq => logic_builtin .eq ev s args
  | .and => builtin_and ev fuel s args
  | .or => builtin_or ev fuel s args
  | .typeof => builtin_typeof ev s args
  | .println => builtin_println ev s args
  | .prompt => builtin_prompt ev s args

/-- C function `internal_eval`.

* nil evaluates to nil;
* a cell's head is evaluated: a function head is applied via
  `eval_function`, a builtin head receives the *raw, unevaluated* cdr, and
  any other head is a `SCLISP_BADARG`;
* a symbol is resolved through the scope chain (`SCLISP_ERR` with
  "scope query failed" when unbound);
* any other atom evaluates to itself.

All recursion consumes one unit of fuel. -/
def internal_eval : Nat → Interp → Obj → Interp × Obj
  | 0, s, _ =>
    (reportErr s SCLISP_BUG (some "model artifact: fuel exhausted"), .nil)
  | fuel+1, s, obj =>
    match obj with
    | .nil => (s, .nil)
    | .cell a d =>
      match internal_eval fuel s a with
      | (s1, op) =>
        match op with
        | .func fargs fbody => eval_function (internal_eval fuel) fuel s1 fargs d fbody
        | .builtin b => apply_builtin (internal_eval fuel) fuel b s1 d
        | .nil =>
          (reportErr s1 SCLISP_BADARG
              (some "non-atomic operator is not executable"), .nil)
        | .cell _ _ =>
          (reportErr s1 SCLISP_BADARG
              (some "non-atomic operator is not executable"), .nil)
        | _ =>
          (reportErr s1 SCLISP_BADARG
              (some "atomic operator is not executable"), .nil)
    | .symbol sym =>
      match scope_query s.scope sym with
      | some v => (s, v)
      | none => (reportErr s SCLISP_ERR (some "scope query failed"), .nil)
    | _ => (s, obj)

/-! ## Initialisation and the public entry point -/

/-- C function `apply_builtins`: install the builtin library and the
`#t`/`#f` constants into the root frame, in source order. -/
def apply_builtins (s : Interp) : Interp :=
  let s := scope_set_top s "set" (.builtin .set)
  let s := scope_set_top s "+" (.builtin .plus)
  let s := scope_set_top s "-" (.builtin .minus)
  let s := scope_set_top s "*" (.builtin .multiply)
  let s := scope_set_top s "/" (.builtin .divide)
  let s := scope_set_top s "mod" (.builtin .mod)
  let s := scope_set_top s "car" (.builtin .car)
  let s := scope_set_top s "cdr" (.builtin .cdr)
  let s := scope_set_top s "cons" (.builtin .cons)
  let s := scope_set_top s "eval" (.builtin .eval)
  let s := scope_set_top s "reverse" (.builtin .reverse)
  let s := scope_set_top s "list" (.builtin .list)
  let s := scope_set_top s "quote" (.builtin .quote)
  let s := scope_set_top s "lambda" (.builtin .lambda)
  let s := scope_set_top s "cond" (.builtin .cond)
  let s := scope_set_top s "true?" (.builtin .trueq)
  let s := scope_set_top s "false?" (.builtin .falseq)
  let s := scope_set_top s "atom?" (.builtin .atomq)
  let s := scope_set_top s "cell?" (.builtin .cellq)
  let s := scope_set_top s "nil?" (.builtin .nilq)
  let s := scope_set_top s "<" (.builtin .lt)
  let s := scope_set_top s "<=" (.builtin .lte)
  let s := scope_set_top s ">" (.builtin .gt)
  let s := scope_set_top s ">=" (.builtin .gte)
  let s := scope_set_top s "==" (.builtin .eq)
  let s := scope_set_top s "and" (.builtin .and)
  let s := scope_set_top s "or" (.builtin .or)
  let s := scope_set_top s "typeof" (.builtin .typeof)
  let s := scope_set_top s "println" (.builtin .println)
  let s := scope_set_top s "prompt" (.builtin .prompt)
  let s := scope_set_top s "#t" SC_STATIC_TRUE
  scope_set_top s "#f" SC_STATIC_FALSE

/-- C function `sclisp_init` with the default callback table (which supplies
a getchar callback reading the host's stdin, modelled by `input`): a single
empty root frame, no last result, no error, then `apply_builtins`. -/
def sclisp_init : Interp :=
  apply_builtins
    { scope := [[]], lr := .nil, le := 0, errmsg := none,
      hasGetchar := true, input := [], output := [] }

/-- The body of C `sclisp_eval` after its NULL-argument guard: clear the
last error, parse the source, evaluate the first expression, release the
previous last-result and store the new one, and return the error code. -/
def sclisp_eval_core (s : Interp) (exp : String) (fuel : Nat) : Interp × Int :=
  let s0 := { s with le := 0, errmsg := none }
  match parse_expr s0 exp with
  | (s1, parsed) =>
    match internal_eval fuel s1 parsed with
    | (s2, res) => ({ s2 with lr := res }, s2.le)

/-- C function `sclisp_eval`: the nullable interpreter handle and source
pointer are modelled as `Option`s; `if (!s || !exp) return SCLISP_BADARG;`
returns immediately with the instance untouched. -/
def sclisp_eval (s : Option Interp) (exp : Option String) (fuel : Nat) :
    Option Interp × Int :=
  match s, exp with
  | some si, some e =>
    match sclisp_eval_core si e fuel with
    | (s1, code) => (some s1, code)
  | _, _ => (s, SCLISP_BADARG)

/-- The error-protocol invariant of the evaluator: starting from a clean
error flag, whenever a call leaves an error recorded its result is nil
(`§7: the evaluator checks this flag between sub-steps and, when set,
releases any local references and short-circuits`). -/
def EvalInv (ev : Interp → Obj → Interp × Obj) : Prop :=
  ∀ s o, s.le = 0 → (ev s o).1.le ≠ 0 → (ev s o).2 = .nil

/-! ## Helper lemmas: the error protocol (`le ≠ 0` implies a nil result) -/

theorem eval_one_arg_some {ev : Interp → Obj → Interp × Obj} {s : Interp}
    {args : Obj} {s1 : Interp} {a : Obj}
    (h : eval_one_arg ev s args = (s1, some a)) : s1.le = 0 := by
  unfold eval_one_arg at h
  split at h
  · simp at h
  · revert h
    rcases ev s (internal_car args) with ⟨t, b⟩
    by_cases hle : t.le = 0 <;> intro h <;> simp [hle] at h
    exact h.1 ▸ hle

theorem eval_two_arg_some {ev : Interp → Obj → Interp × Obj} {s : Interp}
    {args : Obj} {s1 : Interp} {p : Obj × Obj}
    (h : eval_two_arg ev s args = (s1, some p)) : s1.le = 0 := by
  unfold eval_two_arg at h
  split at h
  · simp at h
  · revert h
    rcases ev s (internal_car args) with ⟨t, b⟩
    by_cases hle : t.le = 0 <;> intro h <;> simp [hle] at h
    · revert h
      rcases ev t (internal_car (internal_cdr args)) with ⟨t2, b2⟩
      by_cases hle2 : t2.le = 0 <;> intro h <;> simp [hle2] at h
      exact h.1 ▸ hle2

theorem eval_lte_two_some {ev : Interp → Obj → Interp × Obj} {s : Interp}
    {args : Obj} {s1 : Interp} {p : Obj × Obj}
    (h : eval_lte_two ev s args = (s1, some p)) : s1.le = 0 := by
  unfold eval_lte_two at h
  split at h
  · simp at h
  · revert h
    rcases ev s (internal_car args) with ⟨t, b⟩
    by_cases hle : t.le = 0 <;> intro h <;> simp [hle] at h
    · revert h
      rcases ev t (internal_car (internal_cdr args)) with ⟨t2, b2⟩
      by_cases hle2 : t2.le = 0 <;> intro h <;> simp [hle2] at h
      exact h.1 ▸ hle2

theorem logic_op_inv (s : Interp) (l r : Obj) (op : LogicOp) (h0 : s.le = 0) :
    (logic_op s l r op).1.le ≠ 0 → (logic_op s l r op).2 = .nil := by
  unfold logic_op
  split
  · intro hne; exact absurd h0 hne
  · split
    · intro _; rfl
    · split
      · intro _; rfl
      · intro hne; exact absurd h0 hne

theorem math_loop_inv {ev : Interp → Obj → Interp × Obj} (op : MathOp) :
    ∀ (fuel : Nat) (s : Interp) (acc : NumAtom) (args : Obj), s.le = 0 →
      (math_loop ev op fuel s acc args).1.le ≠ 0 →
      (math_loop ev op fuel s acc args).2 = .nil := by
  intro fuel
  induction fuel with
  | zero => intro s acc args _ _; rfl
  | succ n ih =>
    intro s acc args h0
    unfold math_loop
    split
    · intro hne; exact absurd h0 hne
    · rcases hev : ev s (internal_car args) with ⟨s1, ecar⟩
      by_cases hle : s1.le = 0
      · simp only [hle]
        simp only [ne_eq, not_true_eq_false, if_false, ite_false]
        split
        · intro _; rfl
        · exact ih s1 _ _ hle
      · simp [hle]

theorem math_builtin_inv {ev : Interp → Obj → Interp × Obj} (fuel : Nat)
    (op : MathOp) (init : Int) (s : Interp) (args : Obj) (h0 : s.le = 0) :
    (math_builtin ev fuel op init s args).1.le ≠ 0 →
    (math_builtin ev fuel op init s args).2 = .nil := by
  unfold math_builtin
  split
  · rcases hev : ev s (internal_car args) with ⟨s1, ecar⟩
    by_cases hle : s1.le = 0
    · simp only [hle, ne_eq, not_true_eq_false, if_false, ite_false]
      split
      · exact math_loop_inv op fuel s1 _ _ hle
      · exact math_loop_inv op fuel s1 _ _ hle
      · exact math_loop_inv op fuel s1 _ _ hle
      · intro _; rfl
    · simp [hle]
  · exact math_loop_inv op fuel s _ _ h0

theorem scope_set_top_le (s : Interp) (x : String) (v : Obj) :
    (scope_set_top s x v).le = s.le := by
  unfold scope_set_top; split <;> rfl

theorem builtin_set_inv {ev : Interp → Obj → Interp × Obj} (s : Interp)
    (args : Obj) (h0 : s.le = 0) :
    (builtin_set ev s args).1.le ≠ 0 → (builtin_set ev s args).2 = .nil := by
  unfold builtin_set
  dsimp only
  split
  · split
    · split
      · intro hne
        rw [scope_set_top_le, h0] at hne
        exact absurd rfl hne
      · intro _; rfl
    · intro _; rfl
  · rcases hev : ev s (internal_car (internal_cdr args)) with ⟨s1, eright⟩
    by_cases hle : s1.le = 0
    · simp only [hle, ne_eq, not_true_eq_false, if_false, ite_false]
      split
      · intro hne
        rw [scope_set_top_le, hle] at hne
        exact absurd rfl hne
      · intro _; rfl
    · simp [hle]

theorem builtin_carcdr_inv (sel : Obj → Obj)
    {ev : Interp → Obj → Interp × Obj} (s : Interp) (args : Obj) :
    (builtin_carcdr sel ev s args).1.le ≠ 0 →
    (builtin_carcdr sel ev s args).2 = .nil := by
  unfold builtin_carcdr
  rcases hres : eval_one_arg ev s args with ⟨s1, r⟩
  match r with
  | none => intro _; rfl
  | some a =>
    intro hne
    exact absurd (eval_one_arg_some hres) hne

theorem builtin_cons_inv {ev : Interp → Obj → Interp × Obj} (s : Interp)
    (args : Obj) :
    (builtin_cons ev s args).1.le ≠ 0 → (builtin_cons ev s args).2 = .nil := by
  unfold builtin_cons
  rcases hres : eval_lte_two ev s args with ⟨s1, r⟩
  match r with
  | none => intro _; rfl
  | some (a, b) =>
    intro hne
    exact absurd (eval_lte_two_some hres) hne

theorem builtin_eval_inv {ev : Interp → Obj → Interp × Obj}
    (hinv : EvalInv ev) (s : Interp) (args : Obj) :
    (builtin_eval ev s args).1.le ≠ 0 → (builtin_eval ev s args).2 = .nil := by
  unfold builtin_eval
  rcases hres : eval_one_arg ev s args with ⟨s1, r⟩
  match r with
  | none => intro _; rfl
  | some a => exact hinv s1 a (eval_one_arg_some hres)

theorem builtin_reverse_inv {ev : Interp → Obj → Interp × Obj} (s : Interp)
    (args : Obj) :
    (builtin_reverse ev s args).1.le ≠ 0 →
    (builtin_reverse ev s args).2 = .nil := by
  unfold builtin_reverse
  rcases hres : eval_one_arg ev s args with ⟨s1, r⟩
  match r with
  | none => intro _; rfl
  | some a =>
    intro hne
    exact absurd (eval_one_arg_some hres) hne

theorem builtin_list_inv {ev : Interp → Obj → Interp × Obj} :
    ∀ (fuel : Nat) (s : Interp) (args : Obj), s.le = 0 →
      (builtin_list ev fuel s args).1.le ≠ 0 →
      (builtin_list ev fuel s args).2 = .nil := by
  intro fuel
  induction fuel with
  | zero => intro s args _ _; rfl
  | succ n ih =>
    intro s args h0
    unfold builtin_list
    split
    · intro hne; exact absurd h0 hne
    · rcases hev : ev s (internal_car args) with ⟨s1, ecar⟩
      by_cases hle : s1.le = 0
      · simp only [hle, ne_eq, not_true_eq_false, if_false, ite_false]
        rcases hrec : builtin_list ev n s1 (internal_cdr args) with ⟨s2, ecdr⟩
        by_cases hle2 : s2.le = 0
        · simp [hle2]
        · simp [hle2]
      · simp [hle]

theorem builtin_quote_inv (s : Interp) (args : Obj) (h0 : s.le = 0) :
    (builtin_quote s args).1.le ≠ 0 → (builtin_quote s args).2 = .nil := by
  unfold builtin_quote
  split
  · intro _; rfl
  · intro hne; exact absurd h0 hne

theorem builtin_lambda_inv (s : Interp) (args : Obj) (h0 : s.le = 0) :
    (builtin_lambda s args).1.le ≠ 0 → (builtin_lambda s args).2 = .nil := by
  intro hne; exact absurd h0 hne

theorem builtin_cond_inv {ev : Interp → Obj → Interp × Obj}
    (hinv : EvalInv ev) :
    ∀ (fuel : Nat) (s : Interp) (args : Obj), s.le = 0 →
      (builtin_cond ev fuel s args).1.le ≠ 0 →
      (builtin_cond ev fuel s args).2 = .nil := by
  intro fuel
  induction fuel with
  | zero => intro s args _ _; rfl
  | succ n ih =>
    intro s args h0
    unfold builtin_cond
    dsimp only
    split
    · intro hne; exact absurd h0 hne
    · split
      · intro _; rfl
      · rcases hev : ev s (internal_car (internal_car args)) with ⟨s1, ecar⟩
        by_cases hle : s1.le = 0
        · simp only [hle, ne_eq, not_true_eq_false, if_false, ite_false]
          split
          · exact hinv s1 _ hle
          · exact ih s1 _ hle
        · simp [hle]

theorem unary_bool_builtin_inv (pred : Obj → Bool)
    {ev : Interp → Obj → Interp × Obj} (s : Interp) (args : Obj) :
    (unary_bool_builtin pred ev s args).1.le ≠ 0 →
    (unary_bool_builtin pred ev s args).2 = .nil := by
  unfold unary_bool_builtin
  rcases hres : eval_one_arg ev s args with ⟨s1, r⟩
  match r with
  | none => intro _; rfl
  | some a =>
    intro hne
    exact absurd (eval_one_arg_some hres) hne

theorem logic_builtin_inv (op : LogicOp) {ev : Interp → Obj → Interp × Obj}
    (s : Interp) (args : Obj) :
    (logic_builtin op ev s args).1.le ≠ 0 →
    (logic_builtin op ev s args).2 = .nil := by
  unfold logic_builtin
  rcases hres : eval_two_arg ev s args with ⟨s1, r⟩
  match r with
  | none => intro _; rfl
  | some (a, b) => exact logic_op_inv s1 a b op (eval_two_arg_some hres)

theorem and_loop_inv {ev : Interp → Obj → Interp × Obj} :
    ∀ (fuel : Nat) (s : Interp) (args ecar : Obj), s.le = 0 →
      (and_loop ev fuel s args ecar).1.le ≠ 0 →
      (and_loop ev fuel s args ecar).2 = .nil := by
  intro fuel
  induction fuel with
  | zero => intro s args ecar _ _; rfl
  | succ n ih =>
    intro s args ecar h0
    unfold and_loop
    split
    · intro hne; exact absurd h0 hne
    · rcases hev : ev s (internal_car args) with ⟨s1, e⟩
      by_cases hle : s1.le = 0
      · simp only [hle, ne_eq, not_true_eq_false, if_false, ite_false]
        split
        · intro _; rfl
        · exact ih s1 _ _ hle
      · simp [hle]

theorem builtin_or_inv {ev : Interp → Obj → Interp × Obj} :
    ∀ (fuel : Nat) (s : Interp) (args : Obj), s.le = 0 →
      (builtin_or ev fuel s args).1.le ≠ 0 →
      (builtin_or ev fuel s args).2 = .nil := by
  intro fuel
  induction fuel with
  | zero => intro s args _ _; rfl
  | succ n ih =>
    intro s args h0
    unfold builtin_or
    split
    · intro hne; exact absurd h0 hne
    · rcases hev : ev s (internal_car args) with ⟨s1, e⟩
      by_cases hle : s1.le = 0
      · simp only [hle, ne_eq, not_true_eq_false, if_false, ite_false]
        split
        · intro hne; exact absurd hle hne
        · exact ih s1 _ hle
      · simp [hle]

theorem builtin_typeof_inv {ev : Interp → Obj → Interp × Obj} (s : Interp)
    (args : Obj) :
    (builtin_typeof ev s args).1.le ≠ 0 →
    (builtin_typeof ev s args).2 = .nil := by
  unfold builtin_typeof
  rcases hres : eval_one_arg ev s args with ⟨s1, r⟩
  match r with
  | none => intro _; rfl
  | some a =>
    have h1 := eval_one_arg_some hres
    match a with
    | .nil | .cell _ _ | .integer _ _ | .real _ | .str _ _ | .symbol _
    | .func _ _ | .builtin _ =>
      intro hne; exact absurd h1 hne

theorem builtin_println_inv {ev : Interp → Obj → Interp × Obj} (s : Interp)
    (args : Obj) :
    (builtin_println ev s args).1.le ≠ 0 →
    (builtin_println ev s args).2 = .nil := by
  unfold builtin_println
  rcases hres : eval_one_arg ev s args with ⟨s1, r⟩
  match r with
  | none => intro _; rfl
  | some a =>
    match a with
    | .str out st => intro _; rfl
    | .nil | .cell _ _ | .integer _ _ | .real _ | .symbol _
    | .func _ _ | .builtin _ => intro _; rfl

theorem builtin_prompt_inv {ev : Interp → Obj → Interp × Obj} (s : Interp)
    (args : Obj) :
    (builtin_prompt ev s args).1.le ≠ 0 →
    (builtin_prompt ev s args).2 = .nil := by
  unfold builtin_prompt
  rcases hres : eval_one_arg ev s args with ⟨s1, r⟩
  match r with
  | none => intro _; rfl
  | some a =>
    match a with
    | .str p st =>
      dsimp only
      rcases hgl : sc_getline { s1 with output := s1.output ++ [p] } with ⟨s3, line⟩
      simp only [hgl]
      by_cases hle : s3.le = 0 <;> simp [hle]
    | .nil | .integer _ _ | .real _ | .symbol _ | .func _ _ | .builtin _
    | .cell _ _ =>
      dsimp only
      rcases hgl : sc_getline s1 with ⟨s3, line⟩
      simp only [hgl]
      by_cases hle : s3.le = 0 <;> simp [hle]

theorem eval_function_inv {ev : Interp → Obj → Interp × Obj} (fuel : Nat)
    (s : Interp) (symbols args body : Obj) :
    (eval_function ev fuel s symbols args body).1.le ≠ 0 →
    (eval_function ev fuel s symbols args body).2 = .nil := by
  unfold eval_function
  dsimp only
  split
  · intro _; rfl
  · rcases hbl : body_loop ev fuel (scope_enter_with ev fuel s symbols args)
        (internal_car body) (internal_cdr body) .nil with ⟨s2, r⟩
    match r with
    | none => intro _; rfl
    | some res =>
      by_cases hle : (scope_pop_to_parent s2).le = 0 <;> simp [hle]

theorem apply_builtin_inv {ev : Interp → Obj → Interp × Obj}
    (hinv : EvalInv ev) (fuel : Nat) (b : BName) (s : Interp) (args : Obj)
    (h0 : s.le = 0) :
    (apply_builtin ev fuel b s args).1.le ≠ 0 →
    (apply_builtin ev fuel b s args).2 = .nil := by
  cases b with
  | set => exact builtin_set_inv s args h0
  | plus => exact math_builtin_inv fuel .add 0 s args h0
  | minus => exact math_builtin_inv fuel .sub (-1) s args h0
  | multiply => exact math_builtin_inv fuel .mul 1 s args h0
  | divide => exact math_builtin_inv fuel .div (-1) s args h0
  | mod => exact math_builtin_inv fuel .mod (-1) s args h0
  | car => exact builtin_carcdr_inv internal_car s args
  | cdr => exact builtin_carcdr_inv internal_cdr s args
  | cons => exact builtin_cons_inv s args
  | eval => exact builtin_eval_inv hinv s args
  | reverse => exact builtin_reverse_inv s args
  | list => exact builtin_list_inv fuel s args h0
  | quote => exact builtin_quote_inv s args h0
  | lambda => exact builtin_lambda_inv s args h0
  | cond => exact builtin_cond_inv hinv fuel s args h0
  | trueq => exact unary_bool_builtin_inv is_true s args
  | falseq => exact unary_bool_builtin_inv is_false s args
  | atomq => exact unary_bool_builtin_inv is_atom s args
  | cellq => exact unary_bool_builtin_inv is_cell s args
  | nilq => exact unary_bool_builtin_inv is_nil s args
  | lt => exact logic_builtin_inv .lt s args
  | lte => exact logic_builtin_inv .lte s args
  | gt => exact logic_builtin_inv .gt s args
  | gte => exact logic_builtin_inv .gte s args
  | eq => exact logic_builtin_inv .eq s args
  | and => exact and_loop_inv fuel s args SC_STATIC_TRUE h0
  | or => exact builtin_or_inv fuel s args h0
  | typeof => exact builtin_typeof_inv s args
  | println => exact builtin_println_inv s args
  | prompt => exact builtin_prompt_inv s args

/-- The evaluator's error protocol: from a clean error flag, if
`internal_eval` leaves an error recorded then it returned nil. -/
theorem internal_eval_inv : ∀ fuel, EvalInv (internal_eval fuel) := by
  intro fuel
  induction fuel with
  | zero => intro s o h0 hne; rfl
  | succ n ih =>
    intro s o h0
    match o with
    | .nil => intro _; rfl
    | .cell a d =>
      rcases hh : internal_eval n s a with ⟨s1, op⟩
      simp only [internal_eval, hh]
      cases op with
      | func fa fb => exact eval_function_inv n s1 fa d fb
      | builtin b =>
        have hs1 : s1.le = 0 := by
          by_contra hc
          have h2 := ih s a h0 (by rw [hh]; exact hc)
          rw [hh] at h2
          simp at h2
        exact apply_builtin_inv ih n b s1 d hs1
      | nil => intro _; rfl
      | cell c1 c2 => intro _; rfl
      | integer _ _ => intro _; rfl
      | real _ => intro _; rfl
      | str _ _ => intro _; rfl
      | symbol _ => intro _; rfl
    | .symbol sym =>
      simp only [internal_eval]
      cases hq : scope_query s.scope sym with
      | some v => simp only [hq]; intro hne; exact absurd h0 hne
      | none => simp only [hq]; intro _; trivial
    | .integer _ _ => intro hne; exact absurd h0 hne
    | .real _ => intro hne; exact absurd h0 hne
    | .str _ _ => intro hne; exact absurd h0 hne
    | .func _ _ => intro hne; exact absurd h0 hne
    | .builtin _ => intro hne; exact absurd h0 hne

theorem internal_eval_nil (fuel : Nat) (s : Interp) :
    (internal_eval fuel s .nil).2 = .nil := by
  cases fuel <;> rfl

theorem parse_items_inv :
    ∀ (fuel : Nat) (s : Interp) (toks : List Token) (inList : Bool)
      (quoting : Nat) (acc : List Obj), s.le = 0 →
      (parse_items fuel s toks inList quoting acc).1.le ≠ 0 →
      (parse_items fuel s toks inList quoting acc).2.1 = .nil := by
  intro fuel
  induction fuel with
  | zero => intro s toks inList q acc _ _; rfl
  | succ n ih =>
    intro s toks inList q acc h0
    match toks with
    | [] => intro hne; exact absurd h0 hne
    | t :: rest =>
      cases t with
      | lparen =>
        simp only [parse_items]
        split
        · rcases hsub : parse_items n s (Token.lparen :: rest) false 0 []
            with ⟨s1, sub, toks1⟩
          by_cases hle : s1.le = 0
          · simp only [hsub, hle, ne_eq, not_true_eq_false, if_false,
              ite_false]
            match toks1 with
            | [] => intro _; rfl
            | _ :: toks2 => exact ih s1 toks2 inList 0 _ hle
          · simp [hsub, hle]
        · exact ih s rest true q acc h0
      | rparen =>
        simp only [parse_items]
        split
        · intro hne; exact absurd h0 hne
        · intro hne; exact absurd h0 hne
      | quote =>
        simp only [parse_items]
        match rest with
        | [] => intro _; rfl
        | Token.lparen :: rr =>
          rcases hsub : parse_items n s (Token.lparen :: rr) false 0 []
            with ⟨s1, sub, toks1⟩
          by_cases hle : s1.le = 0
          · simp only [hsub, hle, ne_eq, not_true_eq_false, if_false,
              ite_false]
            cases inList with
            | false => intro hne; exact absurd hle hne
            | true =>
              match toks1 with
              | [] => intro _; rfl
              | _ :: toks2 => exact ih s1 toks2 true 0 _ hle
          · simp [hsub, hle]
        | Token.integer _ :: rr | Token.real _ :: rr | Token.str _ :: rr
        | Token.symbol _ :: rr | Token.nil :: rr | Token.rparen :: rr
        | Token.quote :: rr => exact ih s _ inList (q + 1) acc h0
      | integer m =>
        simp only [parse_items]
        cases inList with
        | false => intro hne; exact absurd h0 hne
        | true => exact ih s rest true 0 _ h0
      | real m =>
        simp only [parse_items]
        cases inList with
        | false => intro hne; exact absurd h0 hne
        | true => exact ih s rest true 0 _ h0
      | str m =>
        simp only [parse_items]
        cases inList with
        | false => intro hne; exact absurd h0 hne
        | true => exact ih s rest true 0 _ h0
      | symbol m =>
        simp only [parse_items]
        cases inList with
        | false => intro hne; exact absurd h0 hne
        | true => exact ih s rest true 0 _ h0
      | nil =>
        simp only [parse_items]
        cases inList with
        | false => intro hne; exact absurd h0 hne
        | true => exact ih s rest true 0 _ h0

theorem parse_expr_inv (s : Interp) (expr : String) (h0 : s.le = 0) :
    (parse_expr s expr).1.le ≠ 0 → (parse_expr s expr).2 = .nil := by
  unfold parse_expr
  match lex_expr expr with
  | .error (code, msg) => intro _; rfl
  | .ok toks =>
    dsimp only
    rcases hp : parse_items (2 * toks.length + 4) s toks false 0 []
      with ⟨s1, obj, toks1⟩
    have h2 := parse_items_inv (2 * toks.length + 4) s toks false 0 [] h0
    rw [hp] at h2
    exact h2

/-- `sclisp_eval` stores the evaluation's result as the new last-result
unconditionally; the projection form of its body. -/
theorem sclisp_eval_core_eq (s : Interp) (exp : String) (fuel : Nat) :
    sclisp_eval_core s exp fuel =
      ({ (internal_eval fuel
            (parse_expr { s with le := 0, errmsg := none } exp).1
            (parse_expr { s with le := 0, errmsg := none } exp).2).1 with
          lr := (internal_eval fuel
            (parse_expr { s with le := 0, errmsg := none } exp).1
            (parse_expr { s with le := 0, errmsg := none } exp).2).2 },
        (internal_eval fuel
            (parse_expr { s with le := 0, errmsg := none } exp).1
            (parse_expr { s with le := 0, errmsg := none } exp).2).1.le) := rfl

/-- Every top-level eval stores the evaluation's result as the last-result;
when the eval fails (nonzero return code) the stored result is nil. -/
theorem sclisp_eval_core_fail_lr (s : Interp) (exp : String) (fuel : Nat)
    (s' : Interp) (c : Int) (h : sclisp_eval_core s exp fuel = (s', c))
    (hc : c ≠ 0) : s'.lr = .nil := by
  rw [sclisp_eval_core_eq] at h
  have hpi := parse_expr_inv { s with le := 0, errmsg := none } exp rfl
  generalize hP : parse_expr { s with le := 0, errmsg := none } exp = P at h hpi
  obtain ⟨P1, P2⟩ := P
  have hei := internal_eval_inv fuel P1 P2
  generalize hQ : internal_eval fuel P1 P2 = Q at h hei
  obtain ⟨Q1, Q2⟩ := Q
  dsimp only at h hpi hei
  obtain ⟨hs', hc'⟩ := Prod.mk.injEq _ _ _ _ |>.mp h
  by_cases hp1 : P1.le = 0
  · have hq2 : Q2 = .nil := hei hp1 (by rw [hc']; exact hc)
    rw [← hs']
    simpa using hq2
  · have hp2 : P2 = .nil := hpi hp1
    subst hp2
    have hnil := internal_eval_nil fuel P1
    rw [hQ] at hnil
    rw [← hs']
    simpa using hnil

/-! ## Small helper lemmas about the cell accessors -/

theorem internal_car_noncell (o : Obj) (h : is_cell o = false) :
    internal_car o = o := by
  cases o <;> first | rfl | simp [is_cell] at h

theorem internal_cdr_noncell (o : Obj) (h : is_cell o = false) :
    internal_cdr o = .nil := by
  cases o <;> first | rfl | simp [is_cell] at h

/-! ## Claims -/

/-- C7: for every non-cell object `o` (including nil), `(car o)` evaluates
to `o` itself and `(cdr o)` evaluates to nil — both at the level of the
accessors `internal_car`/`internal_cdr` and at the level of the `car`/`cdr`
builtins applied to an argument expression that evaluates to `o` — and
neither operation signals an error (the interpreter state is returned
unchanged, with no error code recorded); in particular top-level
`(car nil)` and `(cdr nil)` both succeed with result nil. -/
theorem claim_C7 :
    (∀ o : Obj, is_cell o = false →
      internal_car o = o ∧ internal_cdr o = .nil) ∧
    (∀ (f : Nat) (s s1 : Interp) (X o : Obj),
      internal_eval f s X = (s1, o) → is_cell o = false → s1.le = 0 →
      builtin_carcdr internal_car (internal_eval f) s (.cell X .nil) =
          (s1, o) ∧
        builtin_carcdr internal_cdr (internal_eval f) s (.cell X .nil) =
          (s1, .nil)) ∧
    ((sclisp_eval_core sclisp_init "(car nil)" 20).1.lr = .nil ∧
      (sclisp_eval_core sclisp_init "(car nil)" 20).2 = 0 ∧
      (sclisp_eval_core sclisp_init "(cdr nil)" 20).1.lr = .nil ∧
      (sclisp_eval_core sclisp_init "(cdr nil)" 20).2 = 0) := by
  refine ⟨fun o h => ⟨internal_car_noncell o h, internal_cdr_noncell o h⟩,
    ?_, rfl, rfl, rfl, rfl⟩
  intro f s s1 X o hX ho hle
  have hargs : internal_cdr (Obj.cell X .nil) = .nil := rfl
  have hcar : internal_car (Obj.cell X .nil) = X := rfl
  constructor <;>
  · simp only [builtin_carcdr, eval_one_arg, hargs, hcar, ne_eq,
      not_true_eq_false, if_false, hX, hle, ite_false]
    simp [internal_car_noncell o ho, internal_cdr_noncell o ho]

/-- C10 (implicit): calling top-level `sclisp_eval` with a null interpreter
handle or a null source string returns `SCLISP_BADARG` immediately — before
the last-error is cleared and before any lexing, parsing, or evaluation —
and the interpreter state (last-result, last-error, scope chain) is
returned exactly as it was. -/
theorem claim_C10 :
    ∀ (s : Option Interp) (e : Option String) (fuel : Nat),
      s = none ∨ e = none → sclisp_eval s e fuel = (s, SCLISP_BADARG) := by
  intro s e fuel h
  match s, e with
  | none, _ => rfl
  | some si, none => rfl
  | some si, some es => rcases h with h | h <;> simp at h

theorem claim_C10_witness :
    sclisp_eval none (some "(+ 1 2)") 5 = (none, SCLISP_BADARG) ∧
    sclisp_eval (some sclisp_init) none 5 = (some sclisp_init, SCLISP_BADARG) :=
  ⟨claim_C10 none (some "(+ 1 2)") 5 (Or.inl rfl),
    claim_C10 (some sclisp_init) none 5 (Or.inr rfl)⟩

theorem claim_C7_witness :
    builtin_carcdr internal_car (internal_eval 2) sclisp_init
        (.cell (.integer 7 false) .nil) = (sclisp_init, .integer 7 false) ∧
    builtin_carcdr internal_cdr (internal_eval 2) sclisp_init
        (.cell (.integer 7 false) .nil) = (sclisp_init, .nil) :=
  claim_C7.2.1 2 sclisp_init sclisp_init (.integer 7 false) (.integer 7 false)
    (by rfl) (by rfl) (by rfl)

/-- C1: when a cell's head evaluates to a builtin, the evaluator hands the
builtin the raw, unevaluated argument cdr of the cell (the equation below
shows `internal_eval` dispatching on the unmodified `t`); `builtin_quote`
returns its single argument exactly as received (unevaluated), rejects more
than one argument with `SCLISP_BADARG`, and consequently top-level
`(quote (a b c))` yields the list `(a b c)` even though `a`, `b`, `c` are
unbound symbols, while `(quote a b)` fails with `SCLISP_BADARG`. -/
theorem claim_C1 :
    (∀ (fuel : Nat) (s s1 : Interp) (h t : Obj) (b : BName),
      internal_eval fuel s h = (s1, .builtin b) →
      internal_eval (fuel + 1) s (.cell h t) =
        apply_builtin (internal_eval fuel) fuel b s1 t) ∧
    (∀ (s : Interp) (e : Obj), builtin_quote s (.cell e .nil) = (s, e)) ∧
    (∀ (s : Interp) (e1 e2 r : Obj),
      builtin_quote s (.cell e1 (.cell e2 r)) =
        (reportErr s SCLISP_BADARG (some NEEDS_ONE_ARG), .nil)) ∧
    ((sclisp_eval_core sclisp_init "(quote (a b c))" 20).1.lr =
        .cell (.symbol "a") (.cell (.symbol "b") (.cell (.symbol "c") .nil)) ∧
      (sclisp_eval_core sclisp_init "(quote (a b c))" 20).2 = 0 ∧
      (sclisp_eval_core sclisp_init "(quote a b)" 20).2 = SCLISP_BADARG) := by
  refine ⟨?_, fun s e => rfl, fun s e1 e2 r => rfl, rfl, rfl, rfl⟩
  intro fuel s s1 h t b hh
  simp only [internal_eval, internal_car, internal_cdr, hh]

theorem claim_C1_witness :
    internal_eval 4 sclisp_init
        (.cell (.symbol "quote") (.cell (.cell (.symbol "x") .nil) .nil)) =
      apply_builtin (internal_eval 3) 3 .quote sclisp_init
        (.cell (.cell (.symbol "x") .nil) .nil) :=
  claim_C1.1 3 sclisp_init sclisp_init (.symbol "quote")
    (.cell (.cell (.symbol "x") .nil) .nil) .quote (by with_unfolding_all rfl)

/-- C5: `and` evaluates its operands left to right; when the current
operand evaluates false it returns nil at once, and the result is the same
for every possible tail `rest` (so no later operand is ever evaluated);
when the current operand is truthy it proceeds to the rest carrying that
value, and the last operand's value is returned when every operand was
truthy.  `or` returns the first truthy operand's value at once (again
independently of the tail `rest`), skips a false operand, and yields nil
once the operands are exhausted with none truthy. -/
theorem claim_C5 :
    (∀ (f : Nat) (s s1 : Interp) (h rest v : Obj),
      internal_eval f s h = (s1, v) → s1.le = 0 → is_false v = true →
      builtin_and (internal_eval f) (f + 1) s (.cell h rest) = (s1, .nil)) ∧
    (∀ (f : Nat) (s s1 : Interp) (h rest v : Obj),
      internal_eval f s h = (s1, v) → s1.le = 0 → is_true v = true →
      builtin_and (internal_eval f) (f + 1) s (.cell h rest) =
        and_loop (internal_eval f) f s1 rest v) ∧
    (∀ (f : Nat) (s s1 : Interp) (h v : Obj),
      internal_eval f s h = (s1, v) → s1.le = 0 → is_true v = true →
      builtin_and (internal_eval f) (f + 2) s (.cell h .nil) = (s1, v)) ∧
    (∀ (f : Nat) (s s1 : Interp) (h rest v : Obj),
      internal_eval f s h = (s1, v) → s1.le = 0 → is_true v = true →
      builtin_or (internal_eval f) (f + 1) s (.cell h rest) = (s1, v)) ∧
    (∀ (f : Nat) (s s1 : Interp) (h rest v : Obj),
      internal_eval f s h = (s1, v) → s1.le = 0 → is_false v = true →
      builtin_or (internal_eval f) (f + 1) s (.cell h rest) =
        builtin_or (internal_eval f) f s1 rest) ∧
    (∀ (f : Nat) (s : Interp),
      builtin_or (internal_eval f) (f + 1) s .nil = (s, .nil)) := by
  have hft : ∀ v : Obj, is_false v = true → is_true v = false := by
    intro v hv; simp [is_true, hv]
  refine ⟨?_, ?_, ?_, ?_, ?_, fun f s => rfl⟩
  · intro f s s1 h rest v hh hle hf
    simp only [builtin_and, and_loop, internal_car, internal_cdr, hh, hle,
      hft v hf]
    simp
  · intro f s s1 h rest v hh hle ht
    simp only [builtin_and, and_loop, internal_car, internal_cdr, hh, hle, ht]
    simp
  · intro f s s1 h v hh hle ht
    simp only [builtin_and, and_loop, internal_car, internal_cdr, hh, hle, ht]
    simp [and_loop]
  · intro f s s1 h rest v hh hle ht
    simp only [builtin_or, internal_car, internal_cdr, hh, hle, ht]
    simp
  · intro f s s1 h rest v hh hle hf
    simp only [builtin_or, internal_car, internal_cdr, hh, hle, hft v hf]
    simp

theorem claim_C5_witness :
    builtin_and (internal_eval 2) 3 sclisp_init
        (.cell (.integer 0 false) (.cell (.symbol "never-evaluated") .nil)) =
      (sclisp_init, .nil) ∧
    builtin_or (internal_eval 2) 3 sclisp_init
        (.cell (.integer 7 false) (.cell (.symbol "never-evaluated") .nil)) =
      (sclisp_init, .integer 7 false) :=
  ⟨claim_C5.1 2 sclisp_init sclisp_init (.integer 0 false)
      (.cell (.symbol "never-evaluated") .nil) (.integer 0 false)
      (by rfl) (by rfl) (by rfl),
    claim_C5.2.2.2.1 2 sclisp_init sclisp_init (.integer 7 false)
      (.cell (.symbol "never-evaluated") .nil) (.integer 7 false)
      (by rfl) (by rfl) (by rfl)⟩

/-- C6: scope shadowing.  A query returns the binding from the nearest
enclosing frame: with an inner frame `fr` that does not bind `x` and an
outer chain `g` binding `x` to `v1`, querying `fr :: g` yields `v1`; after
a local `scope_set` of `x` to `v2` on the inner frame the query yields
`v2`, while popping the inner frame leaves the outer binding of `x` still
`v1`.  The `set` builtin mutates only the innermost frame: evaluating
`(set x n)` rewrites exactly the head frame of the chain (the outer frames
`g` are returned untouched) and returns the bound value. -/
theorem claim_C6 :
    (∀ (fr : Frame) (g : List Frame) (x : String) (v1 v2 : Obj),
      frame_lookup fr x = none → scope_query g x = some v1 →
      scope_query (fr :: g) x = some v1 ∧
      scope_query (scope_set fr x v2 :: g) x = some v2 ∧
      scope_query ((scope_set fr x v2 :: g).drop 1) x = some v1) ∧
    (∀ (f : Nat) (s : Interp) (x : String) (n : Int) (fr : Frame)
      (g : List Frame), s.le = 0 → s.scope = fr :: g →
      builtin_set (internal_eval (f + 1)) s
          (.cell (.symbol x) (.cell (.integer n false) .nil)) =
        ({ s with scope := scope_set fr x (.integer n false) :: g },
          .integer n false)) := by
  constructor
  · intro fr g x v1 v2 hfr hg
    have h1 : scope_query (fr :: g) x = some v1 := by
      simp [scope_query, hfr, hg]
    have hset : scope_set fr x v2 = (x, v2) :: fr := by
      simp [scope_set, frame_has, hfr]
    refine ⟨h1, ?_, by simpa using hg⟩
    rw [hset]
    simp [scope_query, frame_lookup]
  · intro f s x n fr g hle hscope
    have hev : internal_eval (f + 1) s (.integer n false) =
        (s, .integer n false) := rfl
    simp only [builtin_set, internal_car, internal_cdr, is_symbol, hev, hle]
    simp [scope_set_top, hscope, hle]

theorem claim_C6_witness :
    scope_query (([("y", Obj.integer 1 false)] : Frame) ::
        ([[("x", Obj.integer 10 false)]] : List Frame)) "x" =
      some (Obj.integer 10 false) ∧
    scope_query (scope_set ([("y", Obj.integer 1 false)] : Frame) "x"
          (Obj.integer 20 false) ::
        ([[("x", Obj.integer 10 false)]] : List Frame)) "x" =
      some (Obj.integer 20 false) :=
  ⟨(claim_C6.1 [("y", Obj.integer 1 false)] [[("x", Obj.integer 10 false)]]
      "x" (Obj.integer 10 false) (Obj.integer 20 false) (by rfl) (by rfl)).1,
    (claim_C6.1 [("y", Obj.integer 1 false)] [[("x", Obj.integer 10 false)]]
      "x" (Obj.integer 10 false) (Obj.integer 20 false) (by rfl) (by rfl)).2.1⟩

/-- C3: every division or modulo whose evaluated right operand is integer
zero (static or dynamic) or real zero fails with `SCLISP_BADARG` (shown on
`math_op`, which performs the checked operation), and concretely a
top-level eval of `(/ 1 0)` returns the `SCLISP_BADARG` code and leaves
the last-result nil. -/
theorem claim_C3 :
    (∀ (l : NumAtom) (st : Bool),
      math_op l (.integer 0 st) .div = .error SCLISP_BADARG) ∧
    (∀ l : NumAtom, math_op l (.real 0) .div = .error SCLISP_BADARG) ∧
    (∀ (l : NumAtom) (st : Bool),
      math_op l (.integer 0 st) .mod = .error SCLISP_BADARG) ∧
    (∀ l : NumAtom, math_op l (.real 0) .mod = .error SCLISP_BADARG) ∧
    ((sclisp_eval_core sclisp_init "(/ 1 0)" 20).2 = SCLISP_BADARG ∧
      (sclisp_eval_core sclisp_init "(/ 1 0)" 20).1.lr = .nil ∧
      (sclisp_eval_core sclisp_init "(/ 1 0)" 20).1.errmsg =
        some "math op failed") := by
  refine ⟨?_, ?_, ?_, ?_, rfl, rfl, rfl⟩
  · intro l st; cases l <;> rfl
  · intro l; cases l <;> rfl
  · intro l st; cases l <;> rfl
  · intro l; cases l <;> rfl

/-- C2 counterexample: the claim says `(-)`, `(/)`, `(mod)` evaluate to
integer 0 and `(- 5)` to -5; on the code `(-)`, `(/)`, and `(mod)` evaluate
to integer 1 (the accumulator seed `(_init*_init)&1` is 1 and is only
replaced by the first operand when at least two operands are present), and
`(- 5)` evaluates to `1 - 5 = -4`. -/
theorem claim_C2_counterexample :
    (sclisp_eval_core sclisp_init "(-)" 20).1.lr = .integer 1 false ∧
    (sclisp_eval_core sclisp_init "(-)" 20).1.lr ≠ .integer 0 false ∧
    (sclisp_eval_core sclisp_init "(-)" 20).1.lr ≠ .integer 0 true ∧
    (sclisp_eval_core sclisp_init "(/)" 20).1.lr = .integer 1 false ∧
    (sclisp_eval_core sclisp_init "(mod)" 20).1.lr = .integer 1 false ∧
    (sclisp_eval_core sclisp_init "(- 5)" 20).1.lr = .integer (-4) false ∧
    (sclisp_eval_core sclisp_init "(- 5)" 20).1.lr ≠ .integer (-5) false ∧
    (sclisp_eval_core sclisp_init "(- 5)" 20).1.lr ≠ .integer (-5) true := by
  have h1 : (sclisp_eval_core sclisp_init "(-)" 20).1.lr =
      .integer 1 false := by with_unfolding_all rfl
  have h2 : (sclisp_eval_core sclisp_init "(- 5)" 20).1.lr =
      .integer (-4) false := by with_unfolding_all rfl
  refine ⟨h1, ?_, ?_, by with_unfolding_all rfl, by with_unfolding_all rfl,
    h2, ?_, ?_⟩ <;> first | (rw [h1]; decide) | (rw [h2]; decide)

/-- C2 (amended): with no arguments `(+)` evaluates to integer 0 and `(*)`
to integer 1, as claimed; but `(-)`, `(/)`, and `(mod)` with no arguments
each evaluate to integer 1, not 0 — the accumulator seed is
`(_init * _init) & 1`, which is 1 for those three builtins — and the
one-argument form `(- x)` returns `1 - x`, not the negation of `x`: the
seed is replaced by the first operand only when at least two operands are
present, so in the unary case the fold subtracts `x` from the seed 1. -/
theorem claim_C2 :
    (∀ (ev : Interp → Obj → Interp × Obj) (f : Nat) (s : Interp),
      math_builtin ev (f + 1) .add 0 s .nil = (s, .integer 0 false) ∧
      math_builtin ev (f + 1) .mul 1 s .nil = (s, .integer 1 false) ∧
      math_builtin ev (f + 1) .sub (-1) s .nil = (s, .integer 1 false) ∧
      math_builtin ev (f + 1) .div (-1) s .nil = (s, .integer 1 false) ∧
      math_builtin ev (f + 1) .mod (-1) s .nil = (s, .integer 1 false)) ∧
    (∀ (f : Nat) (s s1 : Interp) (X : Obj) (n : Int) (st : Bool),
      internal_eval f s X = (s1, .integer n st) → s1.le = 0 →
      math_builtin (internal_eval f) (f + 2) .sub (-1) s (.cell X .nil) =
        (s1, .integer (1 - n) false)) ∧
    (∀ (f : Nat) (s s1 : Interp) (X : Obj) (q : Rat),
      internal_eval f s X = (s1, .real q) → s1.le = 0 →
      math_builtin (internal_eval f) (f + 2) .sub (-1) s (.cell X .nil) =
        (s1, .real (1 - q))) := by
  refine ⟨fun ev f s => ⟨rfl, rfl, rfl, rfl, rfl⟩, ?_, ?_⟩
  · intro f s s1 X n st hX hle
    have hop : math_op (.int 1) (.integer n st) .sub = .ok (.int (1 - n)) :=
      rfl
    simp only [math_builtin, math_loop, internal_car, internal_cdr, hX, hle]
    simp [hop, some_number]
  · intro f s s1 X q hX hle
    have hop : math_op (.int 1) (.real q) .sub =
        .ok (.real (((1 : Int) : Rat) - q)) := rfl
    simp only [math_builtin, math_loop, internal_car, internal_cdr, hX, hle]
    simp [hop, some_number]

theorem claim_C2_witness :
    math_builtin (internal_eval 2) 4 .sub (-1) sclisp_init
        (.cell (.integer 5 false) .nil) = (sclisp_init, .integer (-4) false) :=
  claim_C2.2.1 2 sclisp_init sclisp_init (.integer 5 false) 5 false
    (by rfl) (by rfl)

/-- C8 counterexample: the claim says a failing top-level eval leaves the
last-result equal to the previous successful value `v`.  On the code,
after a successful eval of `42` (last-result 42), the failing eval
`(/ 1 0)` stores its own (nil) result: the last-result becomes nil, not
42. -/
theorem claim_C8_counterexample :
    (sclisp_eval_core sclisp_init "42" 20).2 = 0 ∧
    (sclisp_eval_core sclisp_init "42" 20).1.lr = .integer 42 false ∧
    (sclisp_eval_core (sclisp_eval_core sclisp_init "42" 20).1 "(/ 1 0)"
        20).2 = SCLISP_BADARG ∧
    (sclisp_eval_core (sclisp_eval_core sclisp_init "42" 20).1 "(/ 1 0)"
        20).1.lr = .nil ∧
    (sclisp_eval_core (sclisp_eval_core sclisp_init "42" 20).1 "(/ 1 0)"
        20).1.lr ≠ .integer 42 false := by
  have h : (sclisp_eval_core (sclisp_eval_core sclisp_init "42" 20).1
      "(/ 1 0)" 20).1.lr = .nil := by with_unfolding_all rfl
  exact ⟨by with_unfolding_all rfl, by with_unfolding_all rfl,
    by with_unfolding_all rfl, h, by rw [h]; decide⟩

/-- C8 (amended): the last-result is overwritten by *every* top-level
eval, successful or not — `sclisp_eval` stores the result of the new
evaluation unconditionally.  After a prior successful eval, a subsequent
top-level eval that fails stores that failed evaluation's result, which is
nil: the last-result afterwards is nil, not the previous value. -/
theorem claim_C8 :
    ∀ (s : Interp) (src1 src2 : String) (f1 f2 : Nat) (s1 s2 : Interp)
      (c2 : Int),
      sclisp_eval_core s src1 f1 = (s1, SCLISP_OK) →
      sclisp_eval_core s1 src2 f2 = (s2, c2) → c2 ≠ 0 →
      s2.lr = .nil := by
  intro s src1 src2 f1 f2 s1 s2 c2 _ h2 hc
  exact sclisp_eval_core_fail_lr s1 src2 f2 s2 c2 h2 hc

theorem claim_C8_witness :
    (sclisp_eval_core (sclisp_eval_core sclisp_init "42" 20).1 "(/ 1 0)"
        20).1.lr = .nil :=
  claim_C8 sclisp_init "42" "(/ 1 0)" 20 20
    (sclisp_eval_core sclisp_init "42" 20).1
    (sclisp_eval_core (sclisp_eval_core sclisp_init "42" 20).1 "(/ 1 0)"
        20).1
    (sclisp_eval_core (sclisp_eval_core sclisp_init "42" 20).1 "(/ 1 0)"
        20).2
    (by with_unfolding_all rfl) rfl
    (by
      have : (sclisp_eval_core (sclisp_eval_core sclisp_init "42" 20).1
          "(/ 1 0)" 20).2 = 3 := by with_unfolding_all rfl
      rw [this]; decide)

/-- C4: in the comparison builtins, when either evaluated operand is a
(dynamic) string the other operand is rendered to a string via the printer
(`internal_repr`) and the two strings are compared lexicographically
(`latom_compare` on the `str` variant is string comparison); a nil operand
is first promoted to integer 0.  Consequently `(== 3 "3.0")` evaluates to
the canonical false — integer 3 renders as "3", which differs from "3.0" —
while `(== 3.0 "3.0")` evaluates to the canonical true — real 3.0 renders
as "3.0". -/
theorem claim_C4 :
    (∀ (s : Interp) (a : String) (n : Int) (stn : Bool) (op : LogicOp),
      logic_op s (.str a false) (.integer n stn) op =
        (s, if latom_compare (.str a)
              (.str (internal_repr (.integer n false))) op
            then SC_STATIC_TRUE else SC_STATIC_FALSE)) ∧
    (∀ (s : Interp) (a : String) (q : Rat) (op : LogicOp),
      logic_op s (.str a false) (.real q) op =
        (s, if latom_compare (.str a) (.str (internal_repr (.real q))) op
            then SC_STATIC_TRUE else SC_STATIC_FALSE)) ∧
    (∀ (s : Interp) (a : String) (n : Int) (stn : Bool) (op : LogicOp),
      logic_op s (.integer n stn) (.str a false) op =
        (s, if latom_compare (.str (internal_repr (.integer n false)))
              (.str a) op
            then SC_STATIC_TRUE else SC_STATIC_FALSE)) ∧
    (∀ (s : Interp) (a : String) (q : Rat) (op : LogicOp),
      logic_op s (.real q) (.str a false) op =
        (s, if latom_compare (.str (internal_repr (.real q))) (.str a) op
            then SC_STATIC_TRUE else SC_STATIC_FALSE)) ∧
    (∀ (s : Interp) (r : Obj) (op : LogicOp),
      logic_op s .nil r op = logic_op s (.integer 0 false) r op) ∧
    (∀ (s : Interp) (l : Obj) (op : LogicOp),
      logic_op s l .nil op = logic_op s l (.integer 0 false) op) ∧
    ((sclisp_eval_core sclisp_init "(== 3 \"3.0\")" 20).1.lr =
        SC_STATIC_FALSE ∧
      (sclisp_eval_core sclisp_init "(== 3 \"3.0\")" 20).2 = 0 ∧
      (sclisp_eval_core sclisp_init "(== 3.0 \"3.0\")" 20).1.lr =
        SC_STATIC_TRUE ∧
      (sclisp_eval_core sclisp_init "(== 3.0 \"3.0\")" 20).2 = 0) := by
  refine ⟨?_, ?_, ?_, ?_, ?_, ?_, by with_unfolding_all rfl,
    by with_unfolding_all rfl, by with_unfolding_all rfl,
    by with_unfolding_all rfl⟩
  · intro s a n stn op
    simp [logic_op, isStaticMagic, latomOf, logic_promote]
  · intro s a q op
    simp [logic_op, isStaticMagic, latomOf, logic_promote]
  · intro s a n stn op
    simp [logic_op, isStaticMagic, latomOf, logic_promote]
  · intro s a q op
    simp [logic_op, isStaticMagic, latomOf, logic_promote]
  · intro s r op
    simp [logic_op, isStaticMagic, latomOf]
  · intro s l op
    cases l <;> simp [logic_op, isStaticMagic, latomOf]

/-! ## Lexer lemmas for the token-buffer bound -/

theorem plainTokChar_spec (c : Char) (hc : plainTokChar c = true) :
    (c = cDQ) = False ∧ (c = '(') = False ∧ (c = ')') = False ∧
    (c = cSQ) = False ∧ cIsSpace c = false := by
  simp only [plainTokChar, Bool.not_eq_true', Bool.or_eq_false_iff,
    decide_eq_false_iff_not] at hc
  exact ⟨eq_false hc.1.1.1.1, eq_false hc.1.1.1.2, eq_false hc.1.1.2,
    eq_false hc.1.2, hc.2⟩

/-- One lexer step on an ordinary token character with room in the buffer
and more input to come: the character is appended to the token buffer. -/
theorem lex_loop_plain_step (c : Char) (cs buf : List Char)
    (acc : List Token) (hc : plainTokChar c = true)
    (hlen : buf.length < 127) (hcs : cs ≠ []) :
    lex_loop (c :: cs) buf false acc = lex_loop cs (buf ++ [c]) false acc := by
  obtain ⟨h1, h2, h3, h4, h5⟩ := plainTokChar_spec c hc
  conv_lhs => unfold lex_loop
  simp [Nat.ne_of_lt hlen, h1, h2, h3, h4, h5, hcs]

/-- Consuming a run of ordinary token characters accumulates them in the
buffer, as long as the buffer stays within its 127-byte capacity and input
remains. -/
theorem lex_loop_plain_run :
    ∀ (pre cs buf : List Char) (acc : List Token),
      (∀ c ∈ pre, plainTokChar c = true) → buf.length + pre.length ≤ 127 →
      cs ≠ [] →
      lex_loop (pre ++ cs) buf false acc = lex_loop cs (buf ++ pre) false acc := by
  intro pre
  induction pre with
  | nil => intro cs buf acc _ _ _; simp
  | cons p ps ih =>
    intro cs buf acc hplain hlen hcs
    have hlen' : buf.length < 127 := by
      simp only [List.length_cons] at hlen; omega
    have hne : ps ++ cs ≠ [] := by
      intro h
      rcases List.append_eq_nil.mp h with ⟨-, h2⟩
      exact hcs h2
    calc lex_loop ((p :: ps) ++ cs) buf false acc
        = lex_loop (ps ++ cs) (buf ++ [p]) false acc :=
          lex_loop_plain_step p (ps ++ cs) buf acc
            (hplain p (by simp)) hlen' hne
      _ = lex_loop cs ((buf ++ [p]) ++ ps) false acc := by
          refine ih cs (buf ++ [p]) acc (fun c hmem => hplain c (by simp [hmem])) ?_ hcs
          simp only [List.length_append, List.length_cons,
            List.length_nil] at hlen ⊢
          omega
      _ = lex_loop cs (buf ++ (p :: ps)) false acc := by simp

/-- Once the token buffer holds 127 bytes, the next loop iteration reports
the overflow, whatever the pending character is. -/
theorem lex_loop_overflow (c : Char) (cs buf : List Char) (q : Bool)
    (acc : List Token) (h : buf.length = 127) :
    lex_loop (c :: cs) buf q acc =
      .error (SCLISP_OVERFLOW, "token length exceeds buffer size") := by
  unfold lex_loop
  simp [h]

/-- A single token whose first 127 bytes are ordinary characters followed by
at least one more character overflows the lexer's token buffer. -/
theorem lex_expr_overflow (pre rest : List Char) (hlen : pre.length = 127)
    (hplain : ∀ c ∈ pre, plainTokChar c = true) (hrest : rest ≠ []) :
    lex_expr (String.mk (pre ++ rest)) =
      .error (SCLISP_OVERFLOW, "token length exceeds buffer size") := by
  show lex_loop (pre ++ rest) [] false [] = _
  rw [lex_loop_plain_run pre rest [] [] hplain (by simp [hlen]) hrest]
  match rest with
  | r :: rs => exact lex_loop_overflow r rs pre false [] (by simpa using hlen)

/-- C9: the lexer's token buffer holds at most 127 token bytes.  Any input
whose first 127 characters are ordinary token characters followed by at
least one more character — in particular any single token of 128 bytes —
makes top-level eval fail with `SCLISP_OVERFLOW` and the message "token
length exceeds buffer size" (and a nil last-result), while a 127-byte token
still lexes successfully. -/
theorem claim_C9 :
    (∀ (pre rest : List Char), pre.length = 127 →
      (∀ c ∈ pre, plainTokChar c = true) → rest ≠ [] →
      lex_expr (String.mk (pre ++ rest)) =
        .error (SCLISP_OVERFLOW, "token length exceeds buffer size")) ∧
    (∀ (p126 : List Char) (c : Char), p126.length = 126 →
      (∀ d ∈ p126, plainTokChar d = true) → plainTokChar c = true →
      lex_expr (String.mk (p126 ++ [c])) = .ok [classify (p126 ++ [c])]) ∧
    (∀ (pre rest : List Char) (s : Interp) (f : Nat), pre.length = 127 →
      (∀ c ∈ pre, plainTokChar c = true) → rest ≠ [] →
      sclisp_eval_core s (String.mk (pre ++ rest)) (f + 1) =
        ({ s with le := SCLISP_OVERFLOW, errmsg := some "token length exceeds buffer size", lr := Obj.nil }, SCLISP_OVERFLOW)) := by
  refine ⟨lex_expr_overflow, ?_, ?_⟩
  · intro p126 c hlen hplain hc
    show lex_loop (p126 ++ [c]) [] false [] = _
    rw [lex_loop_plain_run p126 [c] [] [] hplain (by simp [hlen]) (by simp)]
    obtain ⟨h1, h2, h3, h4, h5⟩ := plainTokChar_spec c hc
    unfold lex_loop
    simp [hlen, h1, h2, h3, h4, h5]
  · intro pre rest s f hlen hplain hrest
    have hlex := lex_expr_overflow pre rest hlen hplain hrest
    unfold sclisp_eval_core parse_expr
    rw [hlex]
    rfl

theorem claim_C9_witness :
    lex_expr (String.mk (List.replicate 127 'a' ++ ['a'])) =
      .error (SCLISP_OVERFLOW, "token length exceeds buffer size") :=
  claim_C9.1 (List.replicate 127 'a') ['a'] (by simp)
    (fun c hc => by rw [List.eq_of_mem_replicate hc]; decide) (by simp)
